import Mathlib

set_option linter.unusedSectionVars false
set_option autoImplicit false

/-!
# Verification of the Raycasting-Maze core

A shallow embedding of the raycasting engine: the occupancy grid (`World`,
from `world.js`), the grid-DDA ray caster (`Ray.seekCollision`,
`Ray.nearestGrid`, `Ray.determineFace` from `ray.js`), and the camera with
its sliding collision resolver (`Camera.move` and friends from `camera.js`).

JavaScript numbers are IEEE doubles.  The embedding idealises finite double
arithmetic as exact arithmetic in a linear ordered field `α` (instantiated
at `ℚ` for executable checks and at `ℝ` for the ray caster, which needs
`Math.hypot`, i.e. square roots), but it models the *non-finite* values
explicitly: `JSNum α` adds `+∞`, `-∞` and `NaN` with JavaScript's
arithmetic, division-by-zero and comparison semantics, because
`Ray.nearestGrid` really divides by `Math.tan(theta)`, which is zero for
axis-aligned headings.  (JavaScript's `-0` is not modelled separately: the
only way a relevant `-0` arises is as `Math.tan(-0)` and the sign of the
resulting infinite quotient never affects a branch, since `Math.hypot`
maps both infinities to `+∞`.)
-/

/-- A JavaScript number: a finite value drawn from `α`, an infinity, or NaN. -/
inductive JSNum (α : Type) where
  | fin (x : α)
  | pinf
  | ninf
  | nan
  deriving DecidableEq

section JSNumOps

variable {α : Type} [LinearOrderedField α] [FloorRing α]

/-- JavaScript addition on `JSNum` (`∞ + -∞ = NaN`, NaN propagates). -/
def JSNum.add : JSNum α → JSNum α → JSNum α
  | .fin x, .fin y => .fin (x + y)
  | .fin _, .pinf => .pinf
  | .fin _, .ninf => .ninf
  | .pinf, .fin _ => .pinf
  | .ninf, .fin _ => .ninf
  | .pinf, .pinf => .pinf
  | .ninf, .ninf => .ninf
  | .pinf, .ninf => .nan
  | .ninf, .pinf => .nan
  | .nan, _ => .nan
  | _, .nan => .nan

/-- JavaScript negation on `JSNum`. -/
def JSNum.neg : JSNum α → JSNum α
  | .fin x => .fin (-x)
  | .pinf => .ninf
  | .ninf => .pinf
  | .nan => .nan

/-- JavaScript subtraction on `JSNum`. -/
def JSNum.sub (a b : JSNum α) : JSNum α := a.add b.neg

/-- JavaScript multiplication on `JSNum` (`0 · ∞ = NaN`, NaN propagates). -/
def JSNum.mul : JSNum α → JSNum α → JSNum α
  | .fin x, .fin y => .fin (x * y)
  | .fin x, .pinf => if x = 0 then .nan else if 0 < x then .pinf else .ninf
  | .fin x, .ninf => if x = 0 then .nan else if 0 < x then .ninf else .pinf
  | .pinf, .fin y => if y = 0 then .nan else if 0 < y then .pinf else .ninf
  | .ninf, .fin y => if y = 0 then .nan else if 0 < y then .ninf else .pinf
  | .pinf, .pinf => .pinf
  | .ninf, .ninf => .pinf
  | .pinf, .ninf => .ninf
  | .ninf, .pinf => .ninf
  | .nan, _ => .nan
  | _, .nan => .nan

/-- JavaScript division on `JSNum`.  Division of a nonzero finite value by
(positive) zero yields a signed infinity and `0 / 0` yields NaN, exactly as
in JavaScript; `∞ / ∞ = NaN`, NaN propagates. -/
def JSNum.div : JSNum α → JSNum α → JSNum α
  | .fin x, .fin y =>
      if y = 0 then (if x = 0 then .nan else if 0 < x then .pinf else .ninf)
      else .fin (x / y)
  | .fin _, .pinf => .fin 0
  | .fin _, .ninf => .fin 0
  | .pinf, .fin y => if 0 ≤ y then .pinf else .ninf
  | .ninf, .fin y => if 0 ≤ y then .ninf else .pinf
  | .pinf, .pinf => .nan
  | .pinf, .ninf => .nan
  | .ninf, .pinf => .nan
  | .ninf, .ninf => .nan
  | .nan, _ => .nan
  | _, .nan => .nan

/-- JavaScript `<` on `JSNum`: any comparison involving NaN is false. -/
def JSNum.lt : JSNum α → JSNum α → Bool
  | .fin x, .fin y => decide (x < y)
  | .fin _, .pinf => true
  | .fin _, .ninf => false
  | .pinf, _ => false
  | .ninf, .fin _ => true
  | .ninf, .pinf => true
  | .ninf, .ninf => false
  | .nan, _ => false
  | _, .nan => false

/-- JavaScript `<=` on `JSNum`: any comparison involving NaN is false. -/
def JSNum.le : JSNum α → JSNum α → Bool
  | .nan, _ => false
  | _, .nan => false
  | .fin x, .fin y => decide (x ≤ y)
  | .fin _, .pinf => true
  | .fin _, .ninf => false
  | .pinf, .pinf => true
  | .pinf, .fin _ => false
  | .pinf, .ninf => false
  | .ninf, _ => true

/-- JavaScript strict equality `===` on `JSNum`: NaN equals nothing. -/
def JSNum.seq : JSNum α → JSNum α → Bool
  | .fin x, .fin y => decide (x = y)
  | .pinf, .pinf => true
  | .ninf, .ninf => true
  | _, _ => false

/-- `Math.floor` on `JSNum` (infinities and NaN map to themselves). -/
def JSNum.floor : JSNum α → JSNum α
  | .fin x => .fin (Int.floor x)
  | .pinf => .pinf
  | .ninf => .ninf
  | .nan => .nan

/-- `Math.ceil` on `JSNum` (infinities and NaN map to themselves). -/
def JSNum.ceil : JSNum α → JSNum α
  | .fin x => .fin (Int.ceil x)
  | .pinf => .pinf
  | .ninf => .ninf
  | .nan => .nan

/-- `Math.abs` on `JSNum`. -/
def JSNum.abs : JSNum α → JSNum α
  | .fin x => .fin |x|
  | .pinf => .pinf
  | .ninf => .pinf
  | .nan => .nan

/-- `Number.isInteger` on `JSNum`: false on infinities and NaN. -/
def JSNum.isInt : JSNum α → Bool
  | .fin x => decide (Int.fract x = 0)
  | _ => false

end JSNumOps

/-- The game world (`world.js`, current variant): a 2D array of tiles, a `0`
being empty space and a `1` a wall.  The constructor's deep copy of the
input array is value semantics here. -/
structure World where
  tilemap : List (List ℤ)
  deriving DecidableEq

/-- `World` construction, current variant (`world.js` lines 167-182).  A JS
`null` argument is modelled as `none`; a non-array argument is not
representable in the embedding (the `Array.isArray` throw cannot fire on a
well-typed input).  Note the constructor performs *no* shape validation
beyond these checks: it deep-copies whatever rows it is given. -/
def World.init (theTilemap : Option (List (List ℤ))) : Except String World :=
  match theTilemap with
  | none => .error "World constructor passed null argument(s)."
  | some m => .ok ⟨m⟩

/-- `World` construction, legacy variant (`world.js` lines 17-52): takes a
tile "resolution" and scales the map up by it, but first rejects `null`
arguments and jagged rows (`theTilemap[i].length != theTilemap[0].length`).
The scaled tilemap duplicates each tile `theSize` times horizontally and
each row `theSize` times vertically; the size is taken as a natural number
(the game passes a positive integer constant). -/
def World.initLegacy (theTilemap : Option (List (List ℤ))) (theSize : Option ℕ) :
    Except String World :=
  match theTilemap, theSize with
  | none, _ => .error "World constructor passed null argument(s)."
  | _, none => .error "World constructor passed null argument(s)."
  | some m, some s =>
      if m.all (fun row => row.length = (m.headD []).length) then
        .ok ⟨(m.map (fun row => List.replicate s (row.flatMap (List.replicate s)))).flatten⟩
      else
        .error "World constructor passed a jagged array."

/-- The tile stored at column `i`, row `j`; JavaScript's out-of-bounds
`undefined` (which compares unequal to `1`) is modelled as a default `0`. -/
def World.tileAt (w : World) (i j : ℤ) : ℤ :=
  if 0 ≤ i ∧ 0 ≤ j then (w.tilemap.getD j.toNat []).getD i.toNat 0 else 0

section WorldQueries

variable {α : Type} [LinearOrderedField α] [FloorRing α]

/-- `World.checkCollision` (`world.js` lines 208-221): whether the grid cell
containing the point `(theX, theY)` is a wall; out-of-bounds coordinates
(including infinities and NaN, which fail every comparison) give `false`.
The JS code indexes `this._tilemap[Math.floor(theY)][Math.floor(theX)]` and
compares to `1`; an `undefined` from a short (jagged) row compares unequal
to `1` just as the default `0` does here.  The throw on non-numeric
arguments cannot fire on a well-typed input. -/
def World.checkCollision (w : World) (theX theY : JSNum α) : Bool :=
  JSNum.le (.fin 0) theX && JSNum.le (.fin 0) theY &&
    JSNum.lt theY (.fin (w.tilemap.length : α)) &&
    JSNum.lt theX (.fin ((w.tilemap.headD []).length : α)) &&
    (match theX, theY with
     | .fin x, .fin y => decide ((w.tilemap.getD (Int.floor y).toNat []).getD (Int.floor x).toNat 0 = 1)
     | _, _ => false)

/-- `Math.hypot(a, b) < r` as a single primitive: JavaScript's `hypot`
returns `+∞` if an argument is infinite, NaN if one is NaN, and the exact
square root otherwise; comparing it with `r` therefore reduces to the
rational comparison `a² + b² < r²` guarded by `0 < r`.  This avoids square
roots so the test stays executable over `ℚ`. -/
def JSNum.hypotLt : JSNum α → JSNum α → JSNum α → Bool
  | .pinf, _, .pinf => false
  | .pinf, _, _ => false
  | .ninf, _, .pinf => false
  | .ninf, _, _ => false
  | _, .pinf, .pinf => false
  | _, .pinf, _ => false
  | _, .ninf, .pinf => false
  | _, .ninf, _ => false
  | .nan, _, _ => false
  | _, .nan, _ => false
  | .fin a, .fin b, .fin r => decide (0 < r ∧ a ^ 2 + b ^ 2 < r ^ 2)
  | .fin _, .fin _, .pinf => true
  | .fin _, .fin _, .ninf => false
  | .fin _, .fin _, .nan => false

/-- `World.checkCollCirc` (`world.js` lines 230-273): whether the circle at
`(theX, theY)` with radius `theRad` overlaps some wall cell.  The JS code
scans cells row-major with early exit; since the predicate is existential
the scan is modelled as `List.any` over the indexed rows.  Per wall cell
`(j, i)` with corners `x = j, y = i, x2 = x + 1, y2 = y + 1` it checks
center-inside-box, then the four near-edge conditions, then the four
corners via `Math.hypot … < theRad`. -/
def World.checkCollCirc (w : World) (theX theY theRad : JSNum α) : Bool :=
  (List.range w.tilemap.length).any fun i =>
    (List.range ((w.tilemap.getD i []).length)).any fun j =>
      decide ((w.tilemap.getD i []).getD j 0 ≠ 0) &&
        (let x : JSNum α := .fin (j : α)
         let y : JSNum α := .fin (i : α)
         let x2 : JSNum α := .fin ((j : α) + 1)
         let y2 : JSNum α := .fin ((i : α) + 1)
         let between_x := JSNum.le x theX && JSNum.le theX x2
         let between_y := JSNum.le y theY && JSNum.le theY y2
         (between_x && between_y) ||
           ((between_x && (JSNum.lt (JSNum.abs (JSNum.sub y theY)) theRad ||
                           JSNum.lt (JSNum.abs (JSNum.sub theY y2)) theRad)) ||
            (between_y && (JSNum.lt (JSNum.abs (JSNum.sub x theX)) theRad ||
                           JSNum.lt (JSNum.abs (JSNum.sub theX x2)) theRad))) ||
           (JSNum.hypotLt (JSNum.sub x theX) (JSNum.sub y theY) theRad ||
            JSNum.hypotLt (JSNum.sub x theX) (JSNum.sub y2 theY) theRad ||
            JSNum.hypotLt (JSNum.sub x2 theX) (JSNum.sub y theY) theRad ||
            JSNum.hypotLt (JSNum.sub x2 theX) (JSNum.sub y2 theY) theRad))

end WorldQueries

/-!
## The ray (`ray.js`, current variant in `src/unnamed/part_000` lines 257-531)

The caster works over `ℝ` (its `Math.hypot` is a genuine square root).  The
constructor's runtime type checks (`null`/non-numeric/non-`World` arguments)
cannot fire on well-typed inputs and are not modelled.
-/

/-- A ray: tail position, angle in radians, the world, and a length. -/
structure Ray (α : Type) where
  x : α
  y : α
  theta : α
  world : World
  dist : α

section DetermineFace

variable {α : Type} [LinearOrderedField α] [FloorRing α]

/-- The branch logic of `Ray.determineFace` (lines 399-426), after the
runtime validation has passed: corner hits (both coordinates integral)
consult the cell at the tip and its horizontal neighbour; otherwise an
integral x-coordinate resolves by the sign of cosine, an integral
y-coordinate by the sign of sine, and the (supposedly impossible)
doubly-non-integral case falls through to the initial value `rv = 0`. -/
def Ray.determineFaceCore (w : World) (theX theY : JSNum α)
    (theSignCos theSignSin : α) : ℕ :=
  if theX.isInt && theY.isInt then
    (if w.checkCollision theX theY then
      (if w.checkCollision (theX.sub (.fin 1)) theY then 3 else 2)
     else
      (if w.checkCollision (theX.sub (.fin 1)) theY then 0 else 1))
  else if theX.isInt then
    (if theSignCos = -1 then 0 else 2)
  else if theY.isInt then
    (if theSignSin = -1 then 1 else 3)
  else 0

/-- `Ray.determineFace` (lines 389-427) with its runtime validation of the
sign arguments: values outside `{-1, 0, 1}` throw.  (The non-numeric-type
throw cannot fire on a well-typed input.) -/
def Ray.determineFace (w : World) (theX theY : JSNum α)
    (theSignCos theSignSin : α) : Except String ℕ :=
  if ¬(theSignCos = -1 ∨ theSignCos = 0 ∨ theSignCos = 1) then
    .error "theSignCos must equal -1, 0, or 1"
  else if ¬(theSignSin = -1 ∨ theSignSin = 0 ∨ theSignSin = 1) then
    .error "theSignSin must equal -1, 0, or 1"
  else
    .ok (Ray.determineFaceCore w theX theY theSignCos theSignSin)

end DetermineFace

/-- `Math.hypot` over `JSNum ℝ`: `+∞` if an argument is infinite (even when
the other is NaN), NaN if an argument is NaN, else the Euclidean norm. -/
noncomputable def JSNum.hypot : JSNum ℝ → JSNum ℝ → JSNum ℝ
  | .pinf, _ => .pinf
  | .ninf, _ => .pinf
  | _, .pinf => .pinf
  | _, .ninf => .pinf
  | .nan, _ => .nan
  | _, .nan => .nan
  | .fin a, .fin b => .fin (Real.sqrt (a ^ 2 + b ^ 2))

/-- `Ray.nearestGrid` (lines 437-469): the ray's next crossing with an
integer grid line, snapping the y-coordinate (`theYSnap = true`) or the
x-coordinate.  Faithful to the source, including the division by
`Math.tan(theTheta)` (which for axis-aligned angles is a JavaScript
division by zero, hence the `JSNum` codomain) and the guard
`!Number.isInteger(theY) || theTheta != 0` protecting `rv_x`. -/
noncomputable def Ray.nearestGrid (theX theY : JSNum ℝ) (theTheta : ℝ)
    (theYSnap : Bool) : JSNum ℝ × JSNum ℝ :=
  let b := theY.sub ((JSNum.fin (Real.tan theTheta)).mul theX)
  let sin := Real.sin theTheta
  let cos := Real.cos theTheta
  if theYSnap then
    let rv_y : JSNum ℝ :=
      if theY.isInt then theY.add (.fin (Real.sign sin))
      else if sin < 0 then theY.floor
      else theY.ceil
    let rv_x : JSNum ℝ :=
      if !theY.isInt || theTheta ≠ 0 then
        (rv_y.sub b).div (.fin (Real.tan theTheta))
      else theX
    (rv_x, rv_y)
  else
    let rv_x : JSNum ℝ :=
      if theX.isInt then theX.add (.fin (Real.sign cos))
      else if cos < 0 then theX.floor
      else theX.ceil
    let rv_y := ((JSNum.fin (Real.tan theTheta)).mul rv_x).add b
    (rv_x, rv_y)

/-- The mutable state of `seekCollision`'s `while` loop: the ray's tip and
the accumulated distance. -/
structure SeekState where
  tip_x : JSNum ℝ
  tip_y : JSNum ℝ
  distance : JSNum ℝ

/-- One iteration of the `while` loop of `Ray.seekCollision` (lines
335-374): compute both candidate crossings, move the tip to the nearer one
(the x-crossing when `y_dist === 0 || x_dist < y_dist`), accumulate the
distance, then either stop short (`distance >= this._dist`, yielding the
all-null `Miss` result), report a collision of the entered cell, or
continue.  The corner-safe entered-cell rounding subtracts 1 before
`Math.ceil` on the axes whose sign is `-1`.  The hit face is computed by
`determineFaceCore`: the source calls the validating `determineFace`, whose
sign-argument checks cannot throw here because `Math.sign` only produces
`-1`, `0` or `1` on the non-NaN angle functions. -/
noncomputable def Ray.seekStep (w : World) (theta sign_sin sign_cos theDist : ℝ)
    (s : SeekState) : (Option (JSNum ℝ × JSNum ℝ × ℕ)) ⊕ SeekState :=
  let x_near := Ray.nearestGrid s.tip_x s.tip_y theta false
  let y_near := Ray.nearestGrid s.tip_x s.tip_y theta true
  let x_dist := JSNum.hypot (s.tip_x.sub x_near.1) (s.tip_y.sub x_near.2)
  let y_dist := JSNum.hypot (s.tip_x.sub y_near.1) (s.tip_y.sub y_near.2)
  let moved :=
    if JSNum.seq y_dist (.fin 0) || JSNum.lt x_dist y_dist then (x_near, x_dist)
    else (y_near, y_dist)
  let tip_x := moved.1.1
  let tip_y := moved.1.2
  let distance := s.distance.add moved.2
  if JSNum.le (.fin theDist) distance then .inl none
  else
    let test_x := if sign_cos = -1 then (tip_x.sub (.fin 1)).ceil else tip_x.floor
    let test_y := if sign_sin = -1 then (tip_y.sub (.fin 1)).ceil else tip_y.floor
    if w.checkCollision test_x test_y then
      .inl (some (tip_x, tip_y, Ray.determineFaceCore w tip_x tip_y sign_cos sign_sin))
    else
      .inr ⟨tip_x, tip_y, distance⟩

/-- The `while` loop of `seekCollision` as fuel-indexed iteration of
`seekStep`.  `some (some hit)` is a collision, `some none` the all-null
`Miss` return, and `none` means the loop was still running when the fuel
ran out. -/
noncomputable def Ray.seekAux (w : World) (theta sign_sin sign_cos theDist : ℝ) :
    ℕ → SeekState → Option (Option (JSNum ℝ × JSNum ℝ × ℕ))
  | 0, _ => none
  | fuel + 1, s =>
      match Ray.seekStep w theta sign_sin sign_cos theDist s with
      | .inl r => some r
      | .inr s' => Ray.seekAux w theta sign_sin sign_cos theDist fuel s'

/-- Fuel sufficient for the loop of `seekCollision`: a function of the
maximum cast distance alone (theorem `c5_amended` shows it suffices for
every realizable heading). -/
noncomputable def Ray.fuelBound (theDist : ℝ) : ℕ :=
  2 * ((Int.ceil theDist).toNat + 4)

/-- `Ray.seekCollision` (lines 322-376): where the ray first collides with
a wall.  `sign_sin` and `sign_cos` are hoisted out of the loop exactly as
in the source. -/
noncomputable def Ray.seekCollision (r : Ray ℝ) :
    Option (Option (JSNum ℝ × JSNum ℝ × ℕ)) :=
  Ray.seekAux r.world r.theta (Real.sign (Real.sin r.theta))
    (Real.sign (Real.cos r.theta)) r.dist (Ray.fuelBound r.dist)
    ⟨.fin r.x, .fin r.y, .fin 0⟩

/-- The loop of `seekCollision` never exits, no matter how much fuel it is
given. -/
def Ray.seekDiverges (r : Ray ℝ) : Prop :=
  ∀ fuel, Ray.seekAux r.world r.theta (Real.sign (Real.sin r.theta))
    (Real.sign (Real.cos r.theta)) r.dist fuel
    ⟨.fin r.x, .fin r.y, .fin 0⟩ = none

/-!
## The camera (`camera.js`, current variant, lines 243-561)

The camera works over `ℚ`: every state-relevant quantity it manipulates is
finite, and `ℚ` keeps the definitions executable.  The irrational inputs it
consumes — `ANGLE_DELTA = 1.25π` and `Math.cos`/`Math.sin` of the camera
angle in `update`, and the per-column `Math.atan` angle that `updateCanvas`
writes into the scanning ray's `theta` — enter as explicit parameters.
Canvas drawing and the DOM texture are external collaborators; only the
state effect on the camera (the scanning ray's angle) is modelled.
-/

/-- `DRAW_DISTANCE` (camera.js line 268). -/
def DRAW_DISTANCE : ℚ := 16

/-- `BOUND_SIZE` (camera.js line 271), the bounding-circle radius `0.20`. -/
def BOUND_SIZE : ℚ := 1 / 5

/-- `SLIDE` (camera.js line 274), the slide step `0.0001`. -/
def SLIDE : ℚ := 1 / 10000

/-- `POS_DELTA` (camera.js line 265), tiles per second. -/
def POS_DELTA : ℚ := 3 / 2

/-- `FOV_MIN` (main.js). -/
def FOV_MIN : ℚ := 60

/-- `FOV_MAX` (main.js). -/
def FOV_MAX : ℚ := 90

/-- `SCREEN_WIDTH` (main.js). -/
def SCREEN_WIDTH : ℚ := 800

/-- `SCREEN_HEIGHT` (main.js). -/
def SCREEN_HEIGHT : ℚ := 600

/-- `Math.sign` on a finite number. -/
def jsSign (q : ℚ) : ℚ :=
  if q < 0 then -1 else if 0 < q then 1 else 0

/-- The camera's keyboard state (`this._keymap`). -/
structure Keymap where
  left : Bool
  up : Bool
  right : Bool
  down : Bool

/-- A camera: its pose ray, its column-scanning draw ray, the keymap, and
the screen/FOV/texture settings (the `HTMLImageElement` texture itself is
external and not part of the modelled state). -/
structure Camera where
  cam_ray : Ray ℚ
  draw_ray : Ray ℚ
  keymap : Keymap
  fov_d : ℚ
  sw : ℚ
  sh : ℚ
  textured : Bool

/-- The `Camera` constructor (camera.js lines 289-319): the draw ray copies
the pose ray's position and angle but has length `DRAW_DISTANCE`.  The
`null`/type throws cannot fire on well-typed input. -/
def Camera.init (theRay : Ray ℚ) : Camera where
  cam_ray := theRay
  draw_ray := ⟨theRay.x, theRay.y, theRay.theta, theRay.world, DRAW_DISTANCE⟩
  keymap := ⟨false, false, false, false⟩
  fov_d := Int.floor ((FOV_MIN + FOV_MAX) / 2)
  sw := SCREEN_WIDTH
  sh := SCREEN_HEIGHT
  textured := true

/-- The `x` getter (camera.js lines 504-506). -/
def Camera.x (c : Camera) : ℚ := c.cam_ray.x

/-- The `y` getter (camera.js lines 515-517). -/
def Camera.y (c : Camera) : ℚ := c.cam_ray.y

/-- The `x` setter (camera.js lines 509-512): writes both rays. -/
def Camera.setX (c : Camera) (theX : ℚ) : Camera :=
  { c with cam_ray := { c.cam_ray with x := theX },
           draw_ray := { c.draw_ray with x := theX } }

/-- The `y` setter (camera.js lines 520-523): writes both rays. -/
def Camera.setY (c : Camera) (theY : ℚ) : Camera :=
  { c with cam_ray := { c.cam_ray with y := theY },
           draw_ray := { c.draw_ray with y := theY } }

/-- The state of `Camera.move`'s sliding `while` loop: the accepted offsets
`t_x`, `t_y` and the two loop-exit flags. -/
structure SlideState where
  t_x : ℚ
  t_y : ℚ
  x_flag : Bool
  y_flag : Bool

/-- One iteration of the `while (x_flag || y_flag)` body of `Camera.move`
(camera.js lines 475-492): try to extend each axis's running offset by the
signed step `SLIDE`, accepting the step only if it stays within the
requested magnitude and the combined candidate position (using the *other*
axis's current offset — for the y-test, the x-offset already updated this
iteration) is collision-free; a rejected step clears that axis's flag. -/
def Camera.slideStep (w : World) (cx cy theX theY : ℚ) (s : SlideState) :
    SlideState :=
  let u := SLIDE * jsSign theX
  let v := SLIDE * jsSign theY
  let s1 :=
    if u ≠ 0 ∧ |s.t_x + u| ≤ |theX| ∧
        ¬w.checkCollCirc (.fin (cx + s.t_x + u)) (.fin (cy + s.t_y))
          (.fin BOUND_SIZE) then
      { s with t_x := s.t_x + u }
    else
      { s with x_flag := false }
  if v ≠ 0 ∧ |s1.t_y + v| ≤ |theY| ∧
      ¬w.checkCollCirc (.fin (cx + s1.t_x)) (.fin (cy + s1.t_y + v))
        (.fin BOUND_SIZE) then
    { s1 with t_y := s1.t_y + v }
  else
    { s1 with y_flag := false }

/-- The sliding `while` loop as fuel-indexed iteration: stops as soon as
both flags are down (the loop condition), or when the fuel runs out. -/
def Camera.slideLoop (w : World) (cx cy theX theY : ℚ) :
    ℕ → SlideState → SlideState
  | 0, s => s
  | fuel + 1, s =>
      if s.x_flag || s.y_flag then
        Camera.slideLoop w cx cy theX theY fuel
          (Camera.slideStep w cx cy theX theY s)
      else s

/-- Fuel sufficient for the sliding loop: each axis can accept at most
`|displacement| / SLIDE` steps and every iteration short of the last
accepts at least one step. -/
def Camera.slideFuel (theX theY : ℚ) : ℕ :=
  (Int.ceil (|theX| / SLIDE)).toNat + (Int.ceil (|theY| / SLIDE)).toNat + 2

/-- `Camera.move` (camera.js lines 460-501): a free direct target is taken
outright; otherwise the sliding loop finds offsets `(t_x, t_y)` and the
camera moves by them (through the setters, so both rays move). -/
def Camera.move (c : Camera) (theX theY : ℚ) : Camera :=
  let w := c.cam_ray.world
  if w.checkCollCirc (.fin (c.x + theX)) (.fin (c.y + theY)) (.fin BOUND_SIZE) then
    let r := Camera.slideLoop w c.x c.y theX theY (Camera.slideFuel theX theY)
      ⟨0, 0, true, true⟩
    (c.setX (c.x + r.t_x)).setY (c.y + r.t_y)
  else
    (c.setX (c.x + theX)).setY (c.y + theY)

/-- The state effect of `Camera.updateCanvas` (camera.js lines 322-412): the
column loop repeatedly assigns `this._draw_ray.theta = angle +
this._cam_ray.theta`; after the loop the scanning ray holds the last
column's angle (a `Math.atan` value, passed in as `theLastColAngle`).  All
drawing goes to the external canvas and leaves the camera state alone. -/
def Camera.updateCanvas (c : Camera) (theLastColAngle : ℚ) : Camera :=
  { c with draw_ray := { c.draw_ray with theta := theLastColAngle + c.cam_ray.theta } }

/-- `Camera.update` (camera.js lines 431-453): turn on ArrowLeft/ArrowRight
(`ANGLE_DELTA * theDelta`, the irrational `ANGLE_DELTA = 1.25π` entering as
`theAngleDelta`), move forward/backward on ArrowUp/ArrowDown by
`POS_DELTA * theDelta * (cos θ, sin θ)` (the cosine and sine entering as
`theCos`, `theSin`), redrawing the canvas after each handled key. -/
def Camera.update (c : Camera) (theDelta theAngleDelta theCos theSin
    theLastColAngle : ℚ) : Camera :=
  let c1 :=
    if c.keymap.left then
      Camera.updateCanvas
        { c with cam_ray :=
            { c.cam_ray with theta := c.cam_ray.theta - theAngleDelta * theDelta } }
        theLastColAngle
    else c
  let c2 :=
    if c1.keymap.right then
      Camera.updateCanvas
        { c1 with cam_ray :=
            { c1.cam_ray with theta := c1.cam_ray.theta + theAngleDelta * theDelta } }
        theLastColAngle
    else c1
  let c3 :=
    if c2.keymap.up then
      Camera.updateCanvas
        (c2.move (POS_DELTA * theDelta * theCos) (POS_DELTA * theDelta * theSin))
        theLastColAngle
    else c2
  if c3.keymap.down then
    Camera.updateCanvas
      (c3.move (-POS_DELTA * theDelta * theCos) (-POS_DELTA * theDelta * theSin))
      theLastColAngle
  else c3

/-!
## Basic lemmas about the JavaScript number operations
-/

section JSNumLemmas

variable {α : Type} [LinearOrderedField α] [FloorRing α]

@[simp] theorem JSNum.le_fin_fin (x y : α) :
    JSNum.le (.fin x) (.fin y) = decide (x ≤ y) := rfl

@[simp] theorem JSNum.lt_fin_fin (x y : α) :
    JSNum.lt (.fin x) (.fin y) = decide (x < y) := rfl

@[simp] theorem JSNum.seq_fin_fin (x y : α) :
    JSNum.seq (.fin x) (.fin y) = decide (x = y) := rfl

@[simp] theorem JSNum.add_fin_fin (x y : α) :
    JSNum.add (.fin x) (.fin y) = .fin (x + y) := rfl

@[simp] theorem JSNum.sub_fin_fin (x y : α) :
    JSNum.sub (.fin x) (.fin y) = .fin (x - y) := by
  show JSNum.fin (x + -y) = _
  rw [← sub_eq_add_neg]

@[simp] theorem JSNum.mul_fin_fin (x y : α) :
    JSNum.mul (.fin x) (.fin y) = .fin (x * y) := rfl

@[simp] theorem JSNum.floor_fin (x : α) :
    JSNum.floor (.fin x) = .fin (Int.floor x) := rfl

@[simp] theorem JSNum.ceil_fin (x : α) :
    JSNum.ceil (.fin x) = .fin (Int.ceil x) := rfl

@[simp] theorem JSNum.abs_fin (x : α) :
    JSNum.abs (.fin x) = .fin |x| := rfl

@[simp] theorem JSNum.isInt_fin (x : α) :
    JSNum.isInt (.fin x) = decide (Int.fract x = 0) := rfl

@[simp] theorem JSNum.isInt_pinf : (JSNum.pinf : JSNum α).isInt = false := rfl

@[simp] theorem JSNum.isInt_ninf : (JSNum.ninf : JSNum α).isInt = false := rfl

@[simp] theorem JSNum.isInt_nan : (JSNum.nan : JSNum α).isInt = false := rfl

theorem JSNum.div_fin_fin_of_ne (x y : α) (hy : y ≠ 0) :
    JSNum.div (.fin x) (.fin y) = .fin (x / y) := by
  simp [JSNum.div, hy]

theorem JSNum.div_fin_zero_of_pos (x : α) (hx : 0 < x) :
    JSNum.div (.fin x) (.fin 0) = .pinf := by
  simp [JSNum.div, hx.ne', hx]

theorem JSNum.div_fin_zero_of_neg (x : α) (hx : x < 0) :
    JSNum.div (.fin x) (.fin 0) = .ninf := by
  simp [JSNum.div, hx.ne, hx, not_lt_of_lt hx]

@[simp] theorem JSNum.div_zero_zero :
    JSNum.div (.fin (0 : α)) (.fin 0) = .nan := by
  simp [JSNum.div]

/-- `Number.isInteger` holds exactly on integer casts. -/
theorem JSNum.isInt_fin_iff (x : α) :
    JSNum.isInt (.fin x) = true ↔ ∃ n : ℤ, x = n := by
  simp only [JSNum.isInt_fin, decide_eq_true_eq]
  constructor
  · intro h
    exact ⟨Int.floor x, by rw [← Int.self_sub_fract, h, sub_zero]⟩
  · rintro ⟨n, rfl⟩
    exact Int.fract_intCast n

end JSNumLemmas

/-!
## The `pointBlocked` characterization (claim C6)
-/

section PointBlocked

variable {α : Type} [LinearOrderedField α] [FloorRing α]

theorem World.checkCollision_fin_fin (w : World) (qx qy : α) :
    w.checkCollision (.fin qx) (.fin qy) =
      (decide (0 ≤ qx) && decide (0 ≤ qy) &&
        decide (qy < (w.tilemap.length : α)) &&
        decide (qx < ((w.tilemap.headD []).length : α)) &&
        decide ((w.tilemap.getD (Int.floor qy).toNat []).getD (Int.floor qx).toNat 0 = 1)) := rfl

theorem World.checkCollision_eq_true_iff (w : World) (x y : JSNum α) :
    w.checkCollision x y = true ↔
      ∃ qx qy : α, x = .fin qx ∧ y = .fin qy ∧
        0 ≤ qx ∧ qx < ((w.tilemap.headD []).length : α) ∧
        0 ≤ qy ∧ qy < (w.tilemap.length : α) ∧
        (w.tilemap.getD (Int.floor qy).toNat []).getD (Int.floor qx).toNat 0 = 1 := by
  constructor
  · intro h
    match x, y with
    | .fin qx, .fin qy =>
        rw [World.checkCollision_fin_fin] at h
        simp only [Bool.and_eq_true, decide_eq_true_eq] at h
        exact ⟨qx, qy, rfl, rfl, h.1.1.1.1, h.1.2, h.1.1.1.2, h.1.1.2, h.2⟩
    | .fin qx, .pinf => simp [World.checkCollision, JSNum.le, JSNum.lt] at h
    | .fin qx, .ninf => simp [World.checkCollision, JSNum.le, JSNum.lt] at h
    | .fin qx, .nan => simp [World.checkCollision, JSNum.le, JSNum.lt] at h
    | .pinf, _ => simp [World.checkCollision, JSNum.le, JSNum.lt] at h
    | .ninf, _ => simp [World.checkCollision, JSNum.le, JSNum.lt] at h
    | .nan, _ => simp [World.checkCollision, JSNum.le, JSNum.lt] at h
  · rintro ⟨qx, qy, rfl, rfl, h1, h2, h3, h4, h5⟩
    rw [World.checkCollision_fin_fin]
    simp only [Bool.and_eq_true, decide_eq_true_eq]
    exact ⟨⟨⟨⟨h1, h3⟩, h4⟩, h2⟩, h5⟩

/-- C6: `pointBlocked(x, y)` (i.e. `World.checkCollision`) is `false` — and,
being a total function, never an error — for every coordinate outside
`[0, width) × [0, height)` (including infinities and NaN), and for
in-bounds coordinates it is `true` exactly when the cell at
`(floor x, floor y)` is a wall.  Stated as a single characterization: the
query succeeds exactly on finite in-bounds coordinates whose cell is a
wall, so out-of-bounds coordinates (which refute every disjunct) give
`false`. -/
theorem c6_pointBlocked {α : Type} [LinearOrderedField α] [FloorRing α]
    (w : World) (x y : JSNum α) :
    w.checkCollision x y = true ↔
      ∃ qx qy : α, x = .fin qx ∧ y = .fin qy ∧
        0 ≤ qx ∧ qx < ((w.tilemap.headD []).length : α) ∧
        0 ≤ qy ∧ qy < (w.tilemap.length : α) ∧
        w.tileAt (Int.floor qx) (Int.floor qy) = 1 := by
  rw [World.checkCollision_eq_true_iff]
  constructor
  · rintro ⟨qx, qy, rfl, rfl, h1, h2, h3, h4, h5⟩
    refine ⟨qx, qy, rfl, rfl, h1, h2, h3, h4, ?_⟩
    rw [World.tileAt, if_pos ⟨Int.floor_nonneg.2 h1, Int.floor_nonneg.2 h3⟩]
    exact h5
  · rintro ⟨qx, qy, rfl, rfl, h1, h2, h3, h4, h5⟩
    refine ⟨qx, qy, rfl, rfl, h1, h2, h3, h4, ?_⟩
    rwa [World.tileAt, if_pos ⟨Int.floor_nonneg.2 h1, Int.floor_nonneg.2 h3⟩] at h5

end PointBlocked

/-!
## World construction (claim C4)
-/

/-- C4 counterexample: the claim says construction must fail on jagged and
on empty input; the current constructor (`world.js` lines 167-182) happily
accepts the jagged `[[1], [1, 1]]` and the empty `[]`, and even the legacy
constructor accepts `[]`. -/
theorem c4_counterexample :
    World.init (some [[1], [1, 1]]) = .ok ⟨[[1], [1, 1]]⟩ ∧
    World.init (some []) = .ok ⟨[]⟩ ∧
    World.initLegacy (some []) (some 16) = .ok ⟨[]⟩ := by
  refine ⟨rfl, rfl, ?_⟩
  rw [World.initLegacy]
  rfl

/-- C4, amended: the current `World` constructor fails exactly on `null`
input — every list of rows, jagged or empty, is accepted (deep-copied
as-is).  Only the legacy constructor checks for jagged rows, and even it
accepts the empty grid. -/
theorem World.initLegacy_some (m : List (List ℤ)) (s : ℕ) :
    World.initLegacy (some m) (some s) =
      if m.all (fun row => row.length = (m.headD []).length) then
        .ok ⟨(m.map (fun row => List.replicate s (row.flatMap (List.replicate s)))).flatten⟩
      else .error "World constructor passed a jagged array." := rfl

theorem c4_amended :
    (∀ m : List (List ℤ), World.init (some m) = .ok ⟨m⟩) ∧
    (∀ e : World, World.init none ≠ .ok e) ∧
    (∀ m : List (List ℤ), ∀ s : ℕ,
      (∃ w : World, World.initLegacy (some m) (some s) = .ok w) ↔
        ∀ row ∈ m, row.length = (m.headD []).length) ∧
    (∀ e : World, ∀ s, World.initLegacy none s ≠ .ok e) := by
  refine ⟨fun m => rfl, ?_, ?_, ?_⟩
  · intro e h
    cases h
  · intro m s
    rw [World.initLegacy_some]
    by_cases h : m.all (fun row => row.length = (m.headD []).length)
    · rw [if_pos h]
      simp only [List.all_eq_true, decide_eq_true_eq] at h
      exact ⟨fun _ => h, fun _ => ⟨_, rfl⟩⟩
    · rw [if_neg h]
      simp only [List.all_eq_true, decide_eq_true_eq] at h
      refine ⟨?_, fun hh => absurd hh h⟩
      rintro ⟨w, hw⟩
      cases hw
  · intro e s h
    cases s with
    | none => cases h
    | some s => cases h

/-!
## Face disambiguation (claims C2 and C10)
-/

/-- The 3×3 test grid of the spec's concrete scenario: solid border, open
center. -/
def wBox : World := ⟨[[1, 1, 1], [1, 0, 1], [1, 1, 1]]⟩

/-- C10: on a point with both coordinates non-integral (the case the spec
declares impossible for a true crossing) and any sign arguments in
`{-1, 0, 1}`, `determineFace` passes its validation (does not throw) and
falls through every branch to its default value `rv = 0`. -/
theorem c10_determineFace_default {α : Type} [LinearOrderedField α] [FloorRing α]
    (w : World) (x y : JSNum α) (sc ss : α)
    (hx : x.isInt = false) (hy : y.isInt = false)
    (hsc : sc = -1 ∨ sc = 0 ∨ sc = 1) (hss : ss = -1 ∨ ss = 0 ∨ ss = 1) :
    Ray.determineFace w x y sc ss = .ok 0 := by
  rw [Ray.determineFace, if_neg (not_not_intro hsc), if_neg (not_not_intro hss)]
  simp [Ray.determineFaceCore, hx, hy]

/-- C10 witness: a concrete doubly-non-integral point. -/
theorem c10_witness :
    Ray.determineFace wBox (.fin (1 / 2 : ℚ)) (.fin (5 / 2)) 1 0 = .ok 0 :=
  c10_determineFace_default wBox _ _ 1 0
    (by rw [JSNum.isInt_fin]; norm_num [Int.fract])
    (by rw [JSNum.isInt_fin]; norm_num [Int.fract])
    (by norm_num) (by norm_num)

/-- C2 counterexample: the claim (following spec §4.2's sentence "face is
west if signCosθ < 0, else east" with the glossary codes east = 0,
west = 2) predicts face 2 for a hit at `(2, 1.5)` with `sign cos = -1`;
the code (lines 413-418) returns 0 there. -/
theorem c2_counterexample :
    Ray.determineFace wBox (.fin (2 : ℚ)) (.fin (3 / 2)) (-1) 1 = .ok 0 ∧
    Ray.determineFace wBox (.fin (2 : ℚ)) (.fin (3 / 2)) (-1) 1 ≠ .ok 2 := by
  have hx : (JSNum.fin (2 : ℚ)).isInt = true := by
    rw [JSNum.isInt_fin]
    norm_num [Int.fract]
  have hy : (JSNum.fin (3 / 2 : ℚ)).isInt = false := by
    rw [JSNum.isInt_fin]
    norm_num [Int.fract]
  have h : Ray.determineFace wBox (.fin (2 : ℚ)) (.fin (3 / 2)) (-1) 1 = .ok 0 := by
    rw [Ray.determineFace, if_neg (not_not_intro (Or.inl rfl)),
      if_neg (not_not_intro (Or.inr (Or.inr rfl)))]
    simp [Ray.determineFaceCore, hx, hy]
  exact ⟨h, by rw [h]; simp⟩

/-- C2, amended: on a hit point with integral x and non-integral y (and
valid sign arguments), `determineFace` returns the *east* face (code 0)
when `signCosθ = -1` and the *west* face (code 2) otherwise — the opposite
assignment to the claim's, matching the geometry: a ray travelling in the
`-x` direction strikes the east (`+x`) side of the cell it enters. -/
theorem c2_amended {α : Type} [LinearOrderedField α] [FloorRing α]
    (w : World) (x y : JSNum α) (sc ss : α)
    (hx : x.isInt = true) (hy : y.isInt = false)
    (hsc : sc = -1 ∨ sc = 0 ∨ sc = 1) (hss : ss = -1 ∨ ss = 0 ∨ ss = 1) :
    Ray.determineFace w x y sc ss = .ok (if sc = -1 then 0 else 2) := by
  rw [Ray.determineFace, if_neg (not_not_intro hsc), if_neg (not_not_intro hss)]
  simp [Ray.determineFaceCore, hx, hy]

/-- C2 witness: a hit with integral x, non-integral y, travelling east. -/
theorem c2_witness :
    Ray.determineFace wBox (.fin (1 : ℚ)) (.fin (1 / 2)) 1 (-1) = .ok 2 := by
  rw [c2_amended wBox _ _ 1 (-1)
    (by rw [JSNum.isInt_fin]; norm_num [Int.fract])
    (by rw [JSNum.isInt_fin]; norm_num [Int.fract])
    (by norm_num) (by norm_num)]
  norm_num

/-!
## The camera-rays position invariant (claim C9)
-/

/-- The pose ray and the column-scanning draw ray share their position. -/
def Camera.posSynced (c : Camera) : Prop :=
  c.cam_ray.x = c.draw_ray.x ∧ c.cam_ray.y = c.draw_ray.y

@[simp] theorem Camera.posSynced_setX_setY (c : Camera) (a b : ℚ) :
    ((c.setX a).setY b).posSynced :=
  ⟨rfl, rfl⟩

@[simp] theorem Camera.posSynced_move (c : Camera) (dx dy : ℚ) :
    (c.move dx dy).posSynced := by
  rw [Camera.move]
  dsimp only
  split
  · exact ⟨rfl, rfl⟩
  · exact ⟨rfl, rfl⟩

@[simp] theorem Camera.posSynced_updateCanvas (c : Camera) (a : ℚ) :
    (c.updateCanvas a).posSynced ↔ c.posSynced :=
  Iff.rfl

@[simp] theorem Camera.posSynced_setTheta (c : Camera) (v : ℚ) :
    (({ c with cam_ray := { c.cam_ray with theta := v } } : Camera)).posSynced ↔
      c.posSynced :=
  Iff.rfl

/-- C9: every modelled camera operation — construction, `move`, the `x` and
`y` setters, and the per-frame `update` — keeps the pose ray's and the draw
ray's positions identical.  Construction, the setters and `move` establish
or re-establish the equality on the axes they write outright; `update` only
composes angle writes, `move` and canvas redraws. -/
theorem c9_camera_rays_synced :
    (∀ r : Ray ℚ, (Camera.init r).posSynced) ∧
    (∀ (c : Camera) (v : ℚ), c.posSynced → (c.setX v).posSynced) ∧
    (∀ (c : Camera) (v : ℚ), c.posSynced → (c.setY v).posSynced) ∧
    (∀ (c : Camera) (dx dy : ℚ), c.posSynced → (c.move dx dy).posSynced) ∧
    (∀ (c : Camera) (d ad cs sn la : ℚ), c.posSynced →
      (c.update d ad cs sn la).posSynced) := by
  refine ⟨fun r => ⟨rfl, rfl⟩, fun c v h => ⟨rfl, h.2⟩, fun c v h => ⟨h.1, rfl⟩,
    fun c dx dy _ => Camera.posSynced_move c dx dy, fun c d ad cs sn la h => ?_⟩
  rw [Camera.update]
  dsimp only
  split <;> split <;> split <;> split <;>
    simp_all [Camera.posSynced_updateCanvas, Camera.posSynced_setTheta,
      Camera.posSynced_move]

/-- C9 witness: the invariant holds on a freshly built camera and is kept
by a concrete `update`. -/
theorem c9_witness :
    (Camera.init ⟨3 / 2, 3 / 2, 0, wBox, 16⟩).posSynced ∧
    ((Camera.init ⟨3 / 2, 3 / 2, 0, wBox, 16⟩).update 1 3 1 0 0).posSynced :=
  ⟨c9_camera_rays_synced.1 _,
    c9_camera_rays_synced.2.2.2.2 _ 1 3 1 0 0 (c9_camera_rays_synced.1 _)⟩

/-!
## Zero-radius circle queries (claim C8)
-/

section ZeroRadius

variable {α : Type} [LinearOrderedField α] [FloorRing α]

@[simp] theorem JSNum.lt_abs_fin_zero (a : JSNum α) :
    JSNum.lt (JSNum.abs a) (.fin 0) = false := by
  cases a with
  | fin x => exact decide_eq_false (not_lt.2 (abs_nonneg x))
  | pinf => rfl
  | ninf => rfl
  | nan => rfl

@[simp] theorem JSNum.hypotLt_fin_zero (a b : JSNum α) :
    JSNum.hypotLt a b (.fin 0) = false := by
  cases a <;> cases b <;> simp [JSNum.hypotLt]

/-- With radius `0` the edge and corner branches of `checkCollCirc` can
never fire, leaving exactly the center-inside-closed-cell test. -/
theorem World.checkCollCirc_zero_iff (w : World) (x y : JSNum α) :
    w.checkCollCirc x y (.fin 0) = true ↔
      ∃ i, i < w.tilemap.length ∧ ∃ j, j < (w.tilemap.getD i []).length ∧
        ((w.tilemap.getD i []).getD j 0 ≠ 0 ∧
          (JSNum.le (.fin (j : α)) x = true ∧ JSNum.le x (.fin ((j : α) + 1)) = true) ∧
          (JSNum.le (.fin (i : α)) y = true ∧ JSNum.le y (.fin ((i : α) + 1)) = true)) := by
  rw [World.checkCollCirc]
  simp only [List.any_eq_true, List.mem_range, Bool.and_eq_true, Bool.or_eq_true,
    JSNum.lt_abs_fin_zero, JSNum.hypotLt_fin_zero, Bool.or_self, Bool.and_false,
    Bool.false_and, Bool.or_false, Bool.false_or, decide_eq_true_eq]

/-- `getD` at an in-range index is a member of the list. -/
theorem getD_mem_of_lt {β : Type} (l : List β) (n : ℕ) (d : β)
    (h : n < l.length) : l.getD n d ∈ l := by
  rw [List.getD_eq_getElem l d h]
  exact List.getElem_mem h

/-- A non-integral value lies in the closed unit interval `[n, n+1]` exactly
when its floor is `n`. -/
theorem mem_closed_unit_iff_floor {α : Type} [LinearOrderedField α] [FloorRing α]
    {q : α} (hq : Int.fract q ≠ 0) (n : ℕ) :
    ((n : α) ≤ q ∧ q ≤ (n : α) + 1) ↔ Int.floor q = (n : ℤ) := by
  constructor
  · rintro ⟨h1, h2⟩
    have hne2 : q ≠ (n : α) + 1 := by
      intro h
      apply hq
      rw [h, show ((n : α) + 1) = (((n : ℤ) + 1 : ℤ) : α) by push_cast; ring,
        Int.fract_intCast]
    rw [Int.floor_eq_iff]
    constructor
    · exact_mod_cast h1
    · push_cast
      exact lt_of_le_of_ne h2 hne2
  · intro h
    constructor
    · calc (n : α) = ((n : ℤ) : α) := by push_cast; ring
      _ = ((Int.floor q : ℤ) : α) := by rw [h]
      _ ≤ q := Int.floor_le q
    · calc q ≤ ((Int.floor q : ℤ) : α) + 1 := le_of_lt (Int.lt_floor_add_one q)
      _ = (n : α) + 1 := by rw [h]; push_cast; ring

/-- C8: with radius `0` the edge and corner branches of `checkCollCirc`
(strict `< theRad` comparisons) can never fire, and on a coordinate pair
lying on no integer grid line the center-inside-closed-cell test agrees
with the `checkCollision` point test.  The hypotheses `hrect` and `hvals`
are the spec's data-model invariants (rectangular grid, tiles drawn from
{EMPTY = 0, WALL = 1}); they are needed because `checkCollCirc` scans true
rows and compares `!== 0` while `checkCollision` measures row 0 and
compares `=== 1`. -/
theorem c8_zero_radius_circle {α : Type} [LinearOrderedField α] [FloorRing α]
    (w : World) (x y : JSNum α)
    (hrect : ∀ row ∈ w.tilemap, row.length = (w.tilemap.headD []).length)
    (hvals : ∀ row ∈ w.tilemap, ∀ t ∈ row, t = 0 ∨ t = 1)
    (hx : x.isInt = false) (hy : y.isInt = false) :
    w.checkCollCirc x y (.fin 0) = w.checkCollision x y := by
  have key : (w.checkCollCirc x y (.fin 0) = true) ↔ (w.checkCollision x y = true) := by
    rw [World.checkCollCirc_zero_iff, World.checkCollision_eq_true_iff]
    constructor
    · rintro ⟨i, hi, j, hj, ht, hbx, hby⟩
      match x, y with
      | .fin qx, .fin qy =>
        have hqx : Int.fract qx ≠ 0 := by
          rw [JSNum.isInt_fin] at hx
          exact of_decide_eq_false hx
        have hqy : Int.fract qy ≠ 0 := by
          rw [JSNum.isInt_fin] at hy
          exact of_decide_eq_false hy
        simp only [JSNum.le_fin_fin, decide_eq_true_eq] at hbx hby
        have hfx : Int.floor qx = (j : ℤ) := (mem_closed_unit_iff_floor hqx j).1 hbx
        have hfy : Int.floor qy = (i : ℤ) := (mem_closed_unit_iff_floor hqy i).1 hby
        have hrowmem : w.tilemap.getD i [] ∈ w.tilemap := getD_mem_of_lt _ _ _ hi
        have hwidth : (w.tilemap.getD i []).length = (w.tilemap.headD []).length :=
          hrect _ hrowmem
        refine ⟨qx, qy, rfl, rfl, ?_, ?_, ?_, ?_, ?_⟩
        · exact le_trans (by positivity) hbx.1
        · have hlt1 : qx < (j : α) + 1 := by
            refine lt_of_le_of_ne hbx.2 ?_
            intro h
            apply hqx
            rw [h, show ((j : α) + 1) = (((j : ℤ) + 1 : ℤ) : α) by push_cast; ring,
              Int.fract_intCast]
          have : (j : ℕ) + 1 ≤ (w.tilemap.headD []).length := by omega
          calc qx < (j : α) + 1 := hlt1
          _ ≤ ((w.tilemap.headD []).length : α) := by exact_mod_cast this
        · exact le_trans (by positivity) hby.1
        · have hlt1 : qy < (i : α) + 1 := by
            refine lt_of_le_of_ne hby.2 ?_
            intro h
            apply hqy
            rw [h, show ((i : α) + 1) = (((i : ℤ) + 1 : ℤ) : α) by push_cast; ring,
              Int.fract_intCast]
          have : (i : ℕ) + 1 ≤ w.tilemap.length := by omega
          calc qy < (i : α) + 1 := hlt1
          _ ≤ (w.tilemap.length : α) := by exact_mod_cast this
        · rw [hfx, hfy]
          simp only [Int.toNat_natCast]
          have htmem : (w.tilemap.getD i []).getD j 0 ∈ w.tilemap.getD i [] :=
            getD_mem_of_lt _ _ _ hj
          rcases hvals _ hrowmem _ htmem with h0 | h1
          · exact absurd h0 ht
          · exact h1
      | .fin qx, .pinf => simp [JSNum.le] at hby
      | .fin qx, .ninf => simp [JSNum.le] at hby
      | .fin qx, .nan => simp [JSNum.le] at hby
      | .pinf, _ => simp [JSNum.le] at hbx
      | .ninf, _ => simp [JSNum.le] at hbx
      | .nan, _ => simp [JSNum.le] at hbx
    · rintro ⟨qx, qy, rfl, rfl, h0x, hwx, h0y, hwy, h1⟩
      have hqx : Int.fract qx ≠ 0 := by
        rw [JSNum.isInt_fin] at hx
        exact of_decide_eq_false hx
      have hqy : Int.fract qy ≠ 0 := by
        rw [JSNum.isInt_fin] at hy
        exact of_decide_eq_false hy
      have hfx0 : 0 ≤ Int.floor qx := Int.floor_nonneg.2 h0x
      have hfy0 : 0 ≤ Int.floor qy := Int.floor_nonneg.2 h0y
      have hfyl : Int.floor qy < (w.tilemap.length : ℤ) := by
        rw [Int.floor_lt]
        exact_mod_cast hwy
      have hfxw : Int.floor qx < ((w.tilemap.headD []).length : ℤ) := by
        rw [Int.floor_lt]
        exact_mod_cast hwx
      refine ⟨(Int.floor qy).toNat, ?_, (Int.floor qx).toNat, ?_, ?_, ?_, ?_⟩
      · omega
      · have hrowmem : w.tilemap.getD (Int.floor qy).toNat [] ∈ w.tilemap :=
          getD_mem_of_lt _ _ _ (by omega)
        rw [hrect _ hrowmem]
        omega
      · rw [h1]
        norm_num
      · have h2 : Int.floor qx = (((Int.floor qx).toNat : ℕ) : ℤ) := by omega
        rw [← mem_closed_unit_iff_floor hqx] at h2
        constructor
        · rw [JSNum.le_fin_fin]
          exact decide_eq_true h2.1
        · rw [JSNum.le_fin_fin]
          exact decide_eq_true h2.2
      · have h2 : Int.floor qy = (((Int.floor qy).toNat : ℕ) : ℤ) := by omega
        rw [← mem_closed_unit_iff_floor hqy] at h2
        constructor
        · rw [JSNum.le_fin_fin]
          exact decide_eq_true h2.1
        · rw [JSNum.le_fin_fin]
          exact decide_eq_true h2.2
  cases hc : w.checkCollCirc x y (.fin 0) with
  | true => exact (key.1 hc).symm
  | false =>
      cases hp : w.checkCollision x y with
      | true => exact absurd (key.2 hp) (by rw [hc]; exact Bool.false_ne_true)
      | false => rfl

end ZeroRadius

/-- C8 witness: a concrete off-grid-line point on the 3×3 box world. -/
theorem c8_witness :
    wBox.checkCollCirc (.fin (1 / 2 : ℚ)) (.fin (5 / 2)) (.fin 0) =
      wBox.checkCollision (.fin (1 / 2 : ℚ)) (.fin (5 / 2)) :=
  c8_zero_radius_circle wBox _ _ (by decide) (by decide)
    (by rw [JSNum.isInt_fin]; norm_num [Int.fract])
    (by rw [JSNum.isInt_fin]; norm_num [Int.fract])

/-!
## The sliding collision resolver (claim C3)
-/

/-- One unfolding of the sliding loop. -/
theorem Camera.slideLoop_succ (w : World) (cx cy theX theY : ℚ) (fuel : ℕ)
    (s : SlideState) :
    Camera.slideLoop w cx cy theX theY (fuel + 1) s =
      if s.x_flag || s.y_flag then
        Camera.slideLoop w cx cy theX theY fuel
          (Camera.slideStep w cx cy theX theY s)
      else s := rfl

theorem jsSign_pos {q : ℚ} (h : 0 < q) : jsSign q = 1 := by
  rw [jsSign, if_neg (not_lt.2 h.le), if_pos h]

theorem jsSign_neg {q : ℚ} (h : q < 0) : jsSign q = -1 := by
  rw [jsSign, if_pos h]

theorem jsSign_zero : jsSign 0 = 0 := rfl

/-- The invariant of the sliding loop: the combined candidate position is
collision-free and each running offset lies between `0` and the requested
displacement on its axis. -/
def SlideInv (w : World) (cx cy theX theY : ℚ) (s : SlideState) : Prop :=
  w.checkCollCirc (.fin (cx + s.t_x)) (.fin (cy + s.t_y)) (.fin BOUND_SIZE) = false ∧
  min 0 theX ≤ s.t_x ∧ s.t_x ≤ max 0 theX ∧
  min 0 theY ≤ s.t_y ∧ s.t_y ≤ max 0 theY

theorem slide_bounds_of_accept {d t : ℚ} (hne : SLIDE * jsSign d ≠ 0)
    (hmag : |t + SLIDE * jsSign d| ≤ |d|)
    (h1 : min 0 d ≤ t) (h2 : t ≤ max 0 d) :
    min 0 d ≤ t + SLIDE * jsSign d ∧ t + SLIDE * jsSign d ≤ max 0 d := by
  have hS : (0 : ℚ) < SLIDE := by norm_num [SLIDE]
  rcases lt_trichotomy d 0 with hd | hd | hd
  · have hmin : min (0 : ℚ) d = d := min_eq_right hd.le
    have hmax : max (0 : ℚ) d = 0 := max_eq_left hd.le
    rw [jsSign_neg hd] at hmag ⊢
    rw [hmin] at h1 ⊢
    rw [hmax] at h2 ⊢
    have htle : t + SLIDE * (-1) < 0 := by norm_num [SLIDE] at hmag ⊢ <;> nlinarith
    have habs : |t + SLIDE * (-1)| = -(t + SLIDE * (-1)) := abs_of_neg htle
    have hd' : |d| = -d := abs_of_neg hd
    rw [habs, hd'] at hmag
    constructor
    · nlinarith
    · nlinarith [htle]
  · rw [hd, jsSign_zero, mul_zero] at hne
    exact absurd rfl hne
  · have hmin : min (0 : ℚ) d = 0 := min_eq_left hd.le
    have hmax : max (0 : ℚ) d = d := max_eq_right hd.le
    rw [jsSign_pos hd] at hmag ⊢
    rw [hmin] at h1 ⊢
    rw [hmax] at h2 ⊢
    have htge : 0 < t + SLIDE * 1 := by norm_num [SLIDE] at hmag ⊢ <;> nlinarith
    have habs : |t + SLIDE * 1| = t + SLIDE * 1 := abs_of_pos htge
    have hd' : |d| = d := abs_of_pos hd
    rw [habs, hd'] at hmag
    constructor
    · nlinarith [htge]
    · nlinarith

theorem slideStep_inv (w : World) (cx cy theX theY : ℚ) (s : SlideState)
    (h : SlideInv w cx cy theX theY s) :
    SlideInv w cx cy theX theY (Camera.slideStep w cx cy theX theY s) := by
  obtain ⟨hfree, h1, h2, h3, h4⟩ := h
  simp only [Camera.slideStep]
  split
  case isTrue hc =>
    obtain ⟨hu, hmag, hcoll⟩ := hc
    have hb := slide_bounds_of_accept hu hmag h1 h2
    split
    case isTrue hc2 =>
      obtain ⟨hv, hmag2, hcoll2⟩ := hc2
      dsimp only at hmag2 hcoll2
      have hb2 := slide_bounds_of_accept hv hmag2 h3 h4
      refine ⟨?_, ?_, ?_, ?_, ?_⟩ <;> dsimp only
      · convert Bool.eq_false_iff.2 hcoll2 using 3 <;> ring_nf
      · exact hb.1
      · exact hb.2
      · exact hb2.1
      · exact hb2.2
    case isFalse =>
      refine ⟨?_, ?_, ?_, ?_, ?_⟩ <;> dsimp only
      · convert Bool.eq_false_iff.2 hcoll using 3 <;> ring_nf
      · exact hb.1
      · exact hb.2
      · exact h3
      · exact h4
  case isFalse =>
    split
    case isTrue hc2 =>
      obtain ⟨hv, hmag2, hcoll2⟩ := hc2
      dsimp only at hmag2 hcoll2
      have hb2 := slide_bounds_of_accept hv hmag2 h3 h4
      refine ⟨?_, ?_, ?_, ?_, ?_⟩ <;> dsimp only
      · convert Bool.eq_false_iff.2 hcoll2 using 3 <;> ring_nf
      · exact h1
      · exact h2
      · exact hb2.1
      · exact hb2.2
    case isFalse =>
      exact ⟨hfree, h1, h2, h3, h4⟩

theorem slideLoop_inv (w : World) (cx cy theX theY : ℚ) :
    ∀ (fuel : ℕ) (s : SlideState), SlideInv w cx cy theX theY s →
      SlideInv w cx cy theX theY (Camera.slideLoop w cx cy theX theY fuel s) := by
  intro fuel
  induction fuel with
  | zero => exact fun s h => h
  | succ n ih =>
      intro s h
      rw [Camera.slideLoop_succ]
      split
      · exact ih _ (slideStep_inv w cx cy theX theY s h)
      · exact h

/-- C3, amended: when the direct target is blocked *and the original pose is
itself collision-free*, `Camera.move` returns a collision-free pose whose
per-axis applied offset lies between `0` and the requested displacement
(the bounding radius being the code's fixed `BOUND_SIZE`).  The extra
pose-free hypothesis is forced by the counterexample: from a pose already
inside a wall the slide loop accepts no step and returns the original,
still-blocked pose. -/
theorem c3_amended (c : Camera) (dx dy : ℚ)
    (hblocked : c.cam_ray.world.checkCollCirc (.fin (c.x + dx)) (.fin (c.y + dy))
      (.fin BOUND_SIZE) = true)
    (hfree : c.cam_ray.world.checkCollCirc (.fin c.x) (.fin c.y)
      (.fin BOUND_SIZE) = false) :
    c.cam_ray.world.checkCollCirc (.fin ((c.move dx dy).x)) (.fin ((c.move dx dy).y))
      (.fin BOUND_SIZE) = false ∧
    min 0 dx ≤ (c.move dx dy).x - c.x ∧ (c.move dx dy).x - c.x ≤ max 0 dx ∧
    min 0 dy ≤ (c.move dx dy).y - c.y ∧ (c.move dx dy).y - c.y ≤ max 0 dy := by
  have hinit : SlideInv c.cam_ray.world c.x c.y dx dy ⟨0, 0, true, true⟩ := by
    refine ⟨?_, min_le_left _ _, le_max_left _ _, min_le_left _ _, le_max_left _ _⟩
    dsimp only
    rw [add_zero, add_zero]
    exact hfree
  obtain ⟨hf, b1, b2, b3, b4⟩ :=
    slideLoop_inv c.cam_ray.world c.x c.y dx dy (Camera.slideFuel dx dy) _ hinit
  have hx : (c.move dx dy).x =
      c.x + (Camera.slideLoop c.cam_ray.world c.x c.y dx dy
        (Camera.slideFuel dx dy) ⟨0, 0, true, true⟩).t_x := by
    simp only [Camera.move]
    rw [if_pos hblocked]
    rfl
  have hy : (c.move dx dy).y =
      c.y + (Camera.slideLoop c.cam_ray.world c.x c.y dx dy
        (Camera.slideFuel dx dy) ⟨0, 0, true, true⟩).t_y := by
    simp only [Camera.move]
    rw [if_pos hblocked]
    rfl
  refine ⟨?_, ?_, ?_, ?_, ?_⟩
  · rw [hx, hy]
    exact hf
  · rw [hx, add_sub_cancel_left]
    exact b1
  · rw [hx, add_sub_cancel_left]
    exact b2
  · rw [hy, add_sub_cancel_left]
    exact b3
  · rw [hy, add_sub_cancel_left]
    exact b4

/-- A world that is one solid wall cell. -/
def wCell : World := ⟨[[1]]⟩

/-- The camera of the C3 counterexample, parked *inside* the wall cell. -/
def camC3 : Camera := Camera.init ⟨1 / 2, 1 / 2, 0, wCell, 16⟩

/-- C3 counterexample: from a pose already overlapping a wall, with a
blocked direct target, `move` accepts no slide step and returns the
original pose — at which `circleBlocked` is still true, contradicting the
claim's "returns a pose at which circleBlocked is false". -/
theorem c3_counterexample :
    wCell.checkCollCirc (.fin (camC3.x + 3 / 10)) (.fin (camC3.y + 0))
      (.fin BOUND_SIZE) = true ∧
    wCell.checkCollCirc (.fin ((camC3.move (3 / 10) 0).x))
      (.fin ((camC3.move (3 / 10) 0).y)) (.fin BOUND_SIZE) = true := by
  have hx : camC3.x = 1 / 2 := rfl
  have hy : camC3.y = 1 / 2 := rfl
  have hblocked : wCell.checkCollCirc (.fin (camC3.x + 3 / 10))
      (.fin (camC3.y + 0)) (.fin BOUND_SIZE) = true := by
    rw [hx, hy]
    norm_num [World.checkCollCirc, wCell, show List.range 1 = [0] from rfl,
      JSNum.le, JSNum.lt, JSNum.sub, JSNum.add, JSNum.neg, JSNum.abs,
      JSNum.hypotLt, BOUND_SIZE]
  have hstepA : ¬(SLIDE * jsSign (3 / 10) ≠ 0 ∧
      |(0 : ℚ) + SLIDE * jsSign (3 / 10)| ≤ |(3 / 10 : ℚ)| ∧
      ¬wCell.checkCollCirc (.fin (1 / 2 + 0 + SLIDE * jsSign (3 / 10)))
        (.fin (1 / 2 + 0)) (.fin BOUND_SIZE)) := by
    rintro ⟨-, -, hc⟩
    apply hc
    norm_num [World.checkCollCirc, wCell, show List.range 1 = [0] from rfl,
      JSNum.le, JSNum.lt, JSNum.sub, JSNum.add, JSNum.neg, JSNum.abs,
      JSNum.hypotLt, BOUND_SIZE, SLIDE, jsSign]
  have hstep : Camera.slideStep wCell (1 / 2) (1 / 2) (3 / 10) 0 ⟨0, 0, true, true⟩ =
      ⟨0, 0, false, false⟩ := by
    simp only [Camera.slideStep]
    rw [if_neg hstepA]
    rw [if_neg]
    rintro ⟨hv, -⟩
    exact hv (by norm_num [SLIDE, jsSign])
  have hfuel : Camera.slideFuel (3 / 10) 0 = 3002 := by
    rw [Camera.slideFuel, show |(3 / 10 : ℚ)| / SLIDE = ((3000 : ℤ) : ℚ) by
        rw [abs_of_pos (by norm_num : (0 : ℚ) < 3 / 10)]
        norm_num [SLIDE],
      show |(0 : ℚ)| / SLIDE = ((0 : ℤ) : ℚ) by
        rw [abs_zero]
        norm_num [SLIDE],
      Int.ceil_intCast, Int.ceil_intCast]
    rfl
  have hloop : Camera.slideLoop wCell (1 / 2) (1 / 2) (3 / 10) 0 3002
      ⟨0, 0, true, true⟩ = ⟨0, 0, false, false⟩ := by
    rw [show (3002 : ℕ) = 3001 + 1 from rfl, Camera.slideLoop_succ,
      if_pos (by simp), hstep,
      show (3001 : ℕ) = 3000 + 1 from rfl, Camera.slideLoop_succ,
      if_neg (by simp)]
  have hmX : (camC3.move (3 / 10) 0).x = 1 / 2 := by
    simp only [Camera.move]
    rw [show camC3.cam_ray.world = wCell from rfl, if_pos hblocked, hx, hy,
      hfuel, hloop]
    norm_num [Camera.setX, Camera.setY, Camera.x]
  have hmY : (camC3.move (3 / 10) 0).y = 1 / 2 := by
    simp only [Camera.move]
    rw [show camC3.cam_ray.world = wCell from rfl, if_pos hblocked, hx, hy,
      hfuel, hloop]
    norm_num [Camera.setX, Camera.setY, Camera.y]
  refine ⟨hblocked, ?_⟩
  rw [hmX, hmY]
  norm_num [World.checkCollCirc, wCell, show List.range 1 = [0] from rfl,
    JSNum.le, JSNum.lt, JSNum.sub, JSNum.add, JSNum.neg, JSNum.abs,
    JSNum.hypotLt, BOUND_SIZE]

/-- One open cell next to one wall cell. -/
def wEdge : World := ⟨[[0, 1]]⟩

/-- The camera of the C3 witness: collision-free, just within a slide step
of the blocking boundary of the wall at x ∈ [1, 2]. -/
def camW : Camera := Camera.init ⟨15999 / 20000, 1 / 2, 0, wEdge, 16⟩

/-- C3 witness: a free pose whose small eastward displacement has a blocked
direct target; the amended theorem yields a collision-free result between
the pose and the target. -/
theorem c3_witness :
    camW.cam_ray.world.checkCollCirc (.fin (camW.x + 1 / 5000))
      (.fin (camW.y + 0)) (.fin BOUND_SIZE) = true ∧
    camW.cam_ray.world.checkCollCirc (.fin camW.x) (.fin camW.y)
      (.fin BOUND_SIZE) = false ∧
    (camW.cam_ray.world.checkCollCirc (.fin ((camW.move (1 / 5000) 0).x))
        (.fin ((camW.move (1 / 5000) 0).y)) (.fin BOUND_SIZE) = false ∧
      min 0 (1 / 5000) ≤ (camW.move (1 / 5000) 0).x - camW.x ∧
      (camW.move (1 / 5000) 0).x - camW.x ≤ max 0 (1 / 5000) ∧
      min 0 (0 : ℚ) ≤ (camW.move (1 / 5000) 0).y - camW.y ∧
      (camW.move (1 / 5000) 0).y - camW.y ≤ max 0 (0 : ℚ)) := by
  have hb : camW.cam_ray.world.checkCollCirc (.fin (camW.x + 1 / 5000))
      (.fin (camW.y + 0)) (.fin BOUND_SIZE) = true := by
    show wEdge.checkCollCirc (.fin (15999 / 20000 + 1 / 5000)) (.fin (1 / 2 + 0))
      (.fin BOUND_SIZE) = true
    norm_num [World.checkCollCirc, wEdge, show List.range 1 = [0] from rfl,
      show List.range 2 = [0, 1] from rfl, JSNum.le, JSNum.lt, JSNum.sub,
      JSNum.add, JSNum.neg, JSNum.abs, JSNum.hypotLt, BOUND_SIZE]
    left
    rw [abs_of_pos (by norm_num : (0 : ℚ) < 3997 / 20000)]
    norm_num
  have hf : camW.cam_ray.world.checkCollCirc (.fin camW.x) (.fin camW.y)
      (.fin BOUND_SIZE) = false := by
    show wEdge.checkCollCirc (.fin (15999 / 20000)) (.fin (1 / 2))
      (.fin BOUND_SIZE) = false
    norm_num [World.checkCollCirc, wEdge, show List.range 1 = [0] from rfl,
      show List.range 2 = [0, 1] from rfl, JSNum.le, JSNum.lt, JSNum.sub,
      JSNum.add, JSNum.neg, JSNum.abs, JSNum.hypotLt, BOUND_SIZE]
    constructor
    · rw [abs_of_pos (by norm_num : (0 : ℚ) < 4001 / 20000)]
      norm_num
    · rw [abs_of_pos (by norm_num : (0 : ℚ) < 24001 / 20000)]
      norm_num
  exact ⟨hb, hf, c3_amended camW (1 / 5000) 0 hb hf⟩

/-!
## The concrete eastward cast (claim C1)
-/

/-- One unfolding of the caster's loop. -/
theorem Ray.seekAux_succ (w : World) (theta ss sc d : ℝ) (fuel : ℕ) (s : SeekState) :
    Ray.seekAux w theta ss sc d (fuel + 1) s =
      match Ray.seekStep w theta ss sc d s with
      | .inl r => some r
      | .inr s' => Ray.seekAux w theta ss sc d fuel s' := rfl

/-- The ray of the spec's concrete scenario: origin (1.5, 1.5), heading 0,
maximum distance 5, in the 3×3 box world. -/
noncomputable def rayC1 : Ray ℝ := ⟨3 / 2, 3 / 2, 0, wBox, 5⟩

theorem c1_isInt_mid : (JSNum.fin (3 / 2 : ℝ)).isInt = false := by
  rw [JSNum.isInt_fin]
  norm_num [Int.fract]

theorem c1_ceil_mid : (⌈(3 / 2 : ℝ)⌉ : ℤ) = 2 := by
  rw [Int.ceil_eq_iff]
  constructor <;> norm_num

/-- The first x-crossing of the C1 ray: `(2, 1.5)`. -/
theorem c1_nearestGrid_x :
    Ray.nearestGrid (.fin (3 / 2)) (.fin (3 / 2)) 0 false = (.fin 2, .fin (3 / 2)) := by
  simp only [Ray.nearestGrid, Bool.false_eq_true, if_false, c1_isInt_mid,
    Real.tan_zero, Real.cos_zero, Real.sin_zero]
  rw [if_neg (by norm_num : ¬((1 : ℝ) < 0))]
  simp only [JSNum.ceil_fin, c1_ceil_mid, JSNum.mul_fin_fin, JSNum.sub_fin_fin,
    JSNum.add_fin_fin, Prod.mk.injEq]
  norm_num

/-- The y-snap for the C1 ray divides by `tan 0 = 0` and yields `+∞`,
exactly as the JavaScript does. -/
theorem c1_nearestGrid_y :
    Ray.nearestGrid (.fin (3 / 2)) (.fin (3 / 2)) 0 true = (.pinf, .fin 2) := by
  simp only [Ray.nearestGrid, c1_isInt_mid, Real.tan_zero, Real.cos_zero,
    Real.sin_zero, Bool.false_eq_true, if_false, if_pos trivial, Bool.not_false,
    Bool.true_or, if_true]
  rw [if_neg (by norm_num : ¬((0 : ℝ) < 0))]
  simp only [JSNum.ceil_fin, JSNum.mul_fin_fin, JSNum.sub_fin_fin,
    JSNum.add_fin_fin, Prod.mk.injEq]
  constructor
  · rw [show ((((⌈(3 / 2 : ℝ)⌉ : ℤ)) : ℝ) - (3 / 2 - 0 * (3 / 2))) = (1 / 2 : ℝ) by
      rw [c1_ceil_mid]; push_cast; norm_num]
    exact JSNum.div_fin_zero_of_pos _ (by norm_num)
  · norm_num [c1_ceil_mid]

/-- The single loop iteration of the C1 cast: the x-crossing `(2, 1.5)` is
chosen (the y-crossing is at infinite distance), the entered cell `(2, 1)`
is a wall, and the face comes out as 2. -/
theorem c1_step :
    Ray.seekStep wBox 0 0 1 5 ⟨.fin (3 / 2), .fin (3 / 2), .fin 0⟩ =
      .inl (some (.fin 2, .fin (3 / 2), 2)) := by
  simp only [Ray.seekStep, c1_nearestGrid_x, c1_nearestGrid_y]
  rw [show (JSNum.fin (3 / 2 : ℝ)).sub JSNum.pinf = JSNum.ninf from rfl]
  simp only [JSNum.sub_fin_fin, JSNum.hypot, JSNum.seq, JSNum.lt, JSNum.add_fin_fin]
  rw [show ((3 / 2 - 2 : ℝ) ^ 2 + (3 / 2 - 3 / 2) ^ 2) = ((1 / 2 : ℝ)) ^ 2 by norm_num,
    Real.sqrt_sq (by norm_num : (0 : ℝ) ≤ 1 / 2)]
  simp only [Bool.or_true, if_true, if_pos trivial]
  rw [if_neg (by simp only [JSNum.add_fin_fin, JSNum.le_fin_fin, decide_eq_true_eq]; norm_num)]
  rw [if_neg (by norm_num : ¬((1 : ℝ) = -1)), if_neg (by norm_num : ¬((0 : ℝ) = -1))]
  simp only [JSNum.floor_fin, show (⌊(2 : ℝ)⌋ : ℤ) = 2 from by norm_num,
    show (⌊(3 / 2 : ℝ)⌋ : ℤ) = 1 from by norm_num]
  have hcoll : wBox.checkCollision (JSNum.fin (((2 : ℤ)) : ℝ))
      (JSNum.fin (((1 : ℤ)) : ℝ)) = true := by
    rw [World.checkCollision_fin_fin]
    simp only [Bool.and_eq_true, decide_eq_true_eq]
    refine ⟨⟨⟨⟨by norm_num, by norm_num⟩, ?_⟩, ?_⟩, ?_⟩
    · rw [show wBox.tilemap.length = 3 from rfl]
      norm_num
    · rw [show (wBox.tilemap.headD []).length = 3 from rfl]
      norm_num
    · rw [Int.floor_intCast, Int.floor_intCast]
      rfl
  rw [if_pos hcoll]
  have h2int : (JSNum.fin (2 : ℝ)).isInt = true := by
    rw [JSNum.isInt_fin]
    simp only [decide_eq_true_eq]
    norm_num [Int.fract]
  have hface : Ray.determineFaceCore wBox (JSNum.fin (2 : ℝ)) (JSNum.fin (3 / 2)) 1 0 = 2 := by
    rw [Ray.determineFaceCore]
    rw [h2int, c1_isInt_mid]
    simp only [Bool.and_false, Bool.false_eq_true, if_false, if_true]
    rw [if_neg (by norm_num : ¬((1 : ℝ) = -1))]
  rw [hface]

/-- C1: on the 3×3 border-walled grid, a cast from `(1.5, 1.5)` heading 0
with maximum distance 5 hits at exactly `(2.0, 1.5)` (so certainly within
`1e-6`) with face code 2 — the code the spec's scenario names "east"
(glossary note: the ray travels east and crosses the entered cell's west
(`-x`) side, which the glossary numbers 2). -/
theorem c1_concrete_cast :
    ∃ qx qy : ℝ, Ray.seekCollision rayC1 = some (some (.fin qx, .fin qy, 2)) ∧
      |qx - 2| ≤ 1 / 1000000 ∧ |qy - 3 / 2| ≤ 1 / 1000000 := by
  refine ⟨2, 3 / 2, ?_, by norm_num, by norm_num⟩
  show Ray.seekAux wBox 0 (Real.sign (Real.sin 0)) (Real.sign (Real.cos 0)) 5
    (Ray.fuelBound 5) ⟨.fin (3 / 2), .fin (3 / 2), .fin 0⟩ =
      some (some (.fin 2, .fin (3 / 2), 2))
  rw [Real.sin_zero, Real.sign_zero, Real.cos_zero, Real.sign_of_pos one_pos]
  rw [show Ray.fuelBound 5 = 18 from by
    rw [Ray.fuelBound, show ((5 : ℝ)) = (((5 : ℤ)) : ℝ) by norm_num, Int.ceil_intCast]
    rfl]
  rw [show (18 : ℕ) = 17 + 1 from rfl, Ray.seekAux_succ, c1_step]

/-!
## Divergence of the caster on exact-real axis-aligned headings (claim C5)

At heading exactly `π` from an origin with integral y, `tan π = 0` and
`sin π = 0`, so the y-snap of `nearestGrid` computes `(1 - 1) / 0 = NaN`;
the branch test `x_dist < NaN` is false, the tip becomes `(NaN, 1)` and the
accumulated distance becomes NaN, which never satisfies
`distance >= this._dist` — the loop never exits.  (Floating-point
JavaScript escapes only because no IEEE double is exactly π.)
-/

section NaNLemmas

variable {α : Type} [LinearOrderedField α] [FloorRing α]

@[simp] theorem JSNum.add_nan_right (a : JSNum α) : a.add .nan = .nan := by
  cases a <;> rfl

@[simp] theorem JSNum.add_nan_left (a : JSNum α) : (JSNum.nan).add a = .nan := by
  cases a <;> rfl

@[simp] theorem JSNum.sub_nan_right (a : JSNum α) : a.sub .nan = .nan := by
  cases a <;> rfl

@[simp] theorem JSNum.sub_nan_left (a : JSNum α) : (JSNum.nan).sub a = .nan := by
  cases a <;> rfl

@[simp] theorem JSNum.mul_nan_right (a : JSNum α) : a.mul .nan = .nan := by
  cases a <;> rfl

@[simp] theorem JSNum.div_nan_left (a : JSNum α) : (JSNum.nan).div a = .nan := by
  cases a <;> rfl

@[simp] theorem JSNum.lt_nan_right (a : JSNum α) : JSNum.lt a .nan = false := by
  cases a <;> rfl

@[simp] theorem JSNum.le_nan_right (a : JSNum α) : JSNum.le a .nan = false := by
  cases a <;> rfl

@[simp] theorem JSNum.seq_nan_left (a : JSNum α) : JSNum.seq .nan a = false := by
  cases a <;> rfl

@[simp] theorem JSNum.ceil_nan : (JSNum.nan : JSNum α).ceil = .nan := rfl

@[simp] theorem JSNum.floor_nan : (JSNum.nan : JSNum α).floor = .nan := rfl

/-- A NaN x-coordinate fails `theX >= 0`, so the whole guard chain of
`checkCollision` is false. -/
@[simp] theorem World.checkCollision_nan_left (w : World) (y : JSNum α) :
    w.checkCollision .nan y = false := rfl

end NaNLemmas

@[simp] theorem JSNum.hypot_nan_fin (q : ℝ) :
    JSNum.hypot .nan (.fin q) = .nan := rfl

theorem c5_isInt_one : (JSNum.fin (1 : ℝ)).isInt = true := by
  rw [JSNum.isInt_fin]
  simp only [decide_eq_true_eq]
  norm_num [Int.fract]

/-- The y-snap at heading π from `(1.5, 1)`: `(1 - 1) / tan π = 0 / 0 = NaN`. -/
theorem c5_nearestGrid_y1 :
    Ray.nearestGrid (.fin (3 / 2)) (.fin 1) Real.pi true = (.nan, .fin 1) := by
  simp only [Ray.nearestGrid, if_pos trivial, c5_isInt_one, Real.sin_pi,
    Real.sign_zero, Real.tan_pi, if_true, Bool.not_true, Bool.false_or]
  rw [if_pos (decide_eq_true Real.pi_ne_zero)]
  simp only [JSNum.add_fin_fin, JSNum.mul_fin_fin, JSNum.sub_fin_fin, Prod.mk.injEq]
  refine ⟨?_, by norm_num⟩
  rw [show ((1 + 0 : ℝ) - (1 - 0 * (3 / 2))) = (0 : ℝ) by norm_num]
  exact JSNum.div_zero_zero

/-- The y-snap at heading π from the NaN tip: everything stays NaN. -/
theorem c5_nearestGrid_yN :
    Ray.nearestGrid .nan (.fin 1) Real.pi true = (.nan, .fin 1) := by
  simp only [Ray.nearestGrid, if_pos trivial, c5_isInt_one, Real.sin_pi,
    Real.sign_zero, Real.tan_pi, if_true, Bool.not_true, Bool.false_or]
  rw [if_pos (decide_eq_true Real.pi_ne_zero)]
  simp only [JSNum.mul_nan_right, JSNum.sub_nan_right, JSNum.sub_nan_left,
    JSNum.div_nan_left, Prod.mk.injEq, JSNum.add_fin_fin]
  exact ⟨trivial, by norm_num⟩

/-- The ray of the C5 counterexample: heading exactly π along the grid line
`y = 1`. -/
noncomputable def rayPi : Ray ℝ := ⟨3 / 2, 1, Real.pi, wBox, 16⟩

/-- First loop iteration at heading π on a grid line: the NaN from the
y-snap wins the branch comparison (`x_dist < NaN` is false), poisoning the
tip and the accumulated distance. -/
theorem c5_step_first (w : World) (theDist : ℝ) :
    Ray.seekStep w Real.pi 0 (-1) theDist ⟨.fin (3 / 2), .fin 1, .fin 0⟩ =
      .inr ⟨.nan, .fin 1, .nan⟩ := by
  simp only [Ray.seekStep, c5_nearestGrid_y1]
  simp only [JSNum.sub_nan_right, JSNum.sub_fin_fin, JSNum.hypot_nan_fin,
    JSNum.seq_nan_left, JSNum.lt_nan_right, Bool.or_self, Bool.false_eq_true,
    if_false, JSNum.add_nan_right, JSNum.le_nan_right]
  rw [if_pos (trivial : True)]
  rw [if_neg (by norm_num : ¬((0 : ℝ) = -1))]
  simp only [JSNum.sub_nan_left, JSNum.ceil_nan, World.checkCollision_nan_left,
    Bool.false_eq_true, if_false]

/-- The NaN state is a fixpoint of the loop body: the loop can never exit. -/
theorem c5_step_fix (w : World) (theDist : ℝ) :
    Ray.seekStep w Real.pi 0 (-1) theDist ⟨.nan, .fin 1, .nan⟩ =
      .inr ⟨.nan, .fin 1, .nan⟩ := by
  simp only [Ray.seekStep, c5_nearestGrid_yN]
  simp only [JSNum.sub_nan_right, JSNum.sub_nan_left, JSNum.sub_fin_fin,
    JSNum.hypot_nan_fin, JSNum.seq_nan_left, JSNum.lt_nan_right, Bool.or_self,
    Bool.false_eq_true, if_false, JSNum.add_nan_right, JSNum.add_nan_left,
    JSNum.le_nan_right]
  rw [if_pos (trivial : True)]
  rw [if_neg (by norm_num : ¬((0 : ℝ) = -1))]
  simp only [JSNum.ceil_nan, World.checkCollision_nan_left,
    Bool.false_eq_true, if_false]

/-- At heading exactly π from `(1.5, 1)`, the loop body never returns its
state to the exit tests with non-NaN data: every fuel amount is exhausted,
in any world and under any distance cap. -/
theorem seekAux_pi_none (w : World) (theDist : ℝ) :
    ∀ fuel, Ray.seekAux w Real.pi 0 (-1) theDist fuel
      ⟨.fin (3 / 2), .fin 1, .fin 0⟩ = none := by
  have key : ∀ n, Ray.seekAux w Real.pi 0 (-1) theDist n
      ⟨.nan, .fin 1, .nan⟩ = none := by
    intro n
    induction n with
    | zero => rfl
    | succ k ih =>
        rw [Ray.seekAux_succ, c5_step_fix]
        exact ih
  intro fuel
  cases fuel with
  | zero => rfl
  | succ n =>
      rw [Ray.seekAux_succ, c5_step_first]
      exact key n

/-- C5 counterexample: at the exactly axis-aligned heading θ = π from the
origin `(1.5, 1)` (integral y), the loop of `seekCollision` runs forever — the
claim that it terminates for every heading including exactly axis-aligned ones
fails on the exact-real semantics of the source (spec §9 flags exactly
this unguarded division).  Floating-point JavaScript escapes only because
no IEEE double is exactly π. -/
theorem c5_counterexample : Ray.seekDiverges rayPi := by
  have hss : Real.sign (Real.sin Real.pi) = 0 := by
    rw [Real.sin_pi, Real.sign_zero]
  have hsc : Real.sign (Real.cos Real.pi) = -1 := by
    rw [Real.cos_pi]
    exact Real.sign_of_neg (by norm_num)
  intro fuel
  show Ray.seekAux wBox Real.pi (Real.sign (Real.sin Real.pi))
    (Real.sign (Real.cos Real.pi)) 16 fuel ⟨.fin (3 / 2), .fin 1, .fin 0⟩ = none
  rw [hss, hsc]
  exact seekAux_pi_none wBox 16 fuel

/-!
## Termination and Miss-correctness of the caster (claims C5 and C7)

The loop of `seekCollision` is analysed on the headings realizable by the
code: `θ = 0` exactly (where the guard in `nearestGrid` avoids the division
by `tan 0`), and headings with `sin θ ≠ 0` and `cos θ ≠ 0` (every IEEE
double produced by `Math` falls in one of these classes; the exact-real
axis-aligned headings `π/2, π, 3π/2` do not, and `c5_counterexample` shows
the loop genuinely diverges there).
-/

/-- The next integer strictly to the right of `a` (`Math.ceil`, bumped one
up when `a` is already integral): always `⌊a⌋ + 1`. -/
noncomputable def gridRight (a : ℝ) : ℤ :=
  if Int.fract a = 0 then ⌊a⌋ + 1 else ⌈a⌉

/-- The next integer strictly to the left of `a`: always `⌈a⌉ - 1`. -/
noncomputable def gridLeft (a : ℝ) : ℤ :=
  if Int.fract a = 0 then ⌊a⌋ - 1 else ⌊a⌋

theorem ceil_eq_floor_add_one_of_fract_ne {a : ℝ} (h : Int.fract a ≠ 0) :
    ⌈a⌉ = ⌊a⌋ + 1 := by
  have h1 : ⌊a⌋ < a := by
    rcases lt_or_eq_of_le (Int.floor_le a) with h' | h'
    · exact h'
    · exact absurd (by rw [Int.fract, ← h', Int.floor_intCast]; exact sub_self _) h
  have h2 : (⌈a⌉ : ℝ) ≤ ⌊a⌋ + 1 := by
    have := Int.ceil_le_floor_add_one a
    exact_mod_cast this
  have h3 : ⌊a⌋ < ⌈a⌉ := by
    have := Int.le_ceil a
    exact_mod_cast lt_of_lt_of_le h1 this
  have h4 : ⌈a⌉ ≤ ⌊a⌋ + 1 := by exact_mod_cast h2
  omega

theorem gridRight_eq (a : ℝ) : gridRight a = ⌊a⌋ + 1 := by
  rw [gridRight]
  by_cases h : Int.fract a = 0
  · rw [if_pos h]
  · rw [if_neg h, ceil_eq_floor_add_one_of_fract_ne h]

theorem gridLeft_eq (a : ℝ) : gridLeft a = ⌈a⌉ - 1 := by
  rw [gridLeft]
  by_cases h : Int.fract a = 0
  · rw [if_pos h]
    have : ⌈a⌉ = ⌊a⌋ := by
      have h1 : a = ⌊a⌋ := by
        have := Int.self_sub_fract a
        rw [h, sub_zero] at this
        exact this
      rw [h1, Int.ceil_intCast, Int.floor_intCast]
    omega
  · rw [if_neg h, ceil_eq_floor_add_one_of_fract_ne h]
    omega

theorem lt_gridRight (a : ℝ) : a < ((gridRight a : ℤ) : ℝ) := by
  rw [gridRight_eq]
  push_cast
  exact Int.lt_floor_add_one a

theorem gridLeft_lt (a : ℝ) : ((gridLeft a : ℤ) : ℝ) < a := by
  rw [gridLeft_eq]
  push_cast
  have := Int.ceil_lt_add_one a
  linarith

theorem floor_gridRight (a : ℝ) : ⌊((gridRight a : ℤ) : ℝ)⌋ = ⌊a⌋ + 1 := by
  rw [Int.floor_intCast, gridRight_eq]

theorem floor_neg_gridLeft (a : ℝ) : ⌊-((gridLeft a : ℤ) : ℝ)⌋ = ⌊-a⌋ + 1 := by
  rw [show -((gridLeft a : ℤ) : ℝ) = ((-(gridLeft a) : ℤ) : ℝ) by push_cast; ring,
    Int.floor_intCast, gridLeft_eq, Int.floor_neg]
  omega

/-- The grid line the tip crosses next along one axis: the one to the left
of coordinate `a` when the direction component `c` (a sine or cosine) is
negative, to the right otherwise — exactly the snapping performed by
`nearestGrid` on finite non-NaN data. -/
noncomputable def nextGrid (c a : ℝ) : ℤ :=
  if c < 0 then gridLeft a else gridRight a

theorem nextGrid_cast_int (c a : ℝ) (hc : c ≠ 0) (hf : Int.fract a = 0) :
    ((nextGrid c a : ℤ) : ℝ) = a + Real.sign c := by
  have hfl : ((⌊a⌋ : ℤ) : ℝ) = a := by
    have := Int.self_sub_fract a
    rw [hf, sub_zero] at this
    exact this.symm
  rcases hc.lt_or_lt with h | h
  · rw [nextGrid, if_pos h, Real.sign_of_neg h, gridLeft, if_pos hf]
    push_cast
    rw [hfl]
    ring
  · rw [nextGrid, if_neg (not_lt.2 h.le), Real.sign_of_pos h, gridRight, if_pos hf]
    push_cast
    rw [hfl]

theorem floor_sign_nextGrid (c a : ℝ) (hc : c ≠ 0) :
    ⌊Real.sign c * ((nextGrid c a : ℤ) : ℝ)⌋ = ⌊Real.sign c * a⌋ + 1 := by
  rcases hc.lt_or_lt with h | h
  · rw [Real.sign_of_neg h, neg_one_mul, neg_one_mul, nextGrid, if_pos h]
    exact floor_neg_gridLeft a
  · rw [Real.sign_of_pos h, one_mul, one_mul, nextGrid, if_neg (not_lt.2 h.le)]
    exact floor_gridRight a

theorem sign_mul_lt_nextGrid (c a : ℝ) (hc : c ≠ 0) :
    Real.sign c * a < Real.sign c * ((nextGrid c a : ℤ) : ℝ) := by
  rcases hc.lt_or_lt with h | h
  · rw [Real.sign_of_neg h, neg_one_mul, neg_one_mul, nextGrid, if_pos h]
    have := gridLeft_lt a
    linarith
  · rw [Real.sign_of_pos h, one_mul, one_mul, nextGrid, if_neg (not_lt.2 h.le)]
    exact lt_gridRight a

/-- On finite inputs with `cos θ ≠ 0`, the x-snapping `nearestGrid` moves
the tip to the `nextGrid` x-line and keeps it on the line of slope `tan θ`
through the old tip. -/
theorem nearestGrid_x_eq (theta ξ η : ℝ) (hc : Real.cos theta ≠ 0) :
    Ray.nearestGrid (.fin ξ) (.fin η) theta false =
      (.fin ((nextGrid (Real.cos theta) ξ : ℤ) : ℝ),
       .fin (Real.tan theta * ((nextGrid (Real.cos theta) ξ : ℤ) : ℝ) +
         (η - Real.tan theta * ξ))) := by
  simp only [Ray.nearestGrid, Bool.false_eq_true, if_false, JSNum.isInt_fin,
    JSNum.mul_fin_fin, JSNum.sub_fin_fin]
  by_cases hf : Int.fract ξ = 0
  · simp only [decide_eq_true hf]
    rw [if_pos trivial, nextGrid_cast_int _ _ hc hf]
    simp only [JSNum.add_fin_fin, JSNum.mul_fin_fin]
  · simp only [decide_eq_false hf]
    rw [if_neg Bool.false_ne_true]
    rcases hc.lt_or_lt with h | h
    · rw [if_pos h, nextGrid, if_pos h, gridLeft, if_neg hf]
      simp only [JSNum.floor_fin, JSNum.mul_fin_fin, JSNum.add_fin_fin]
    · rw [if_neg (not_lt.2 h.le), nextGrid, if_neg (not_lt.2 h.le), gridRight,
        if_neg hf]
      simp only [JSNum.ceil_fin, JSNum.mul_fin_fin, JSNum.add_fin_fin]

/-- On finite inputs with `sin θ ≠ 0` and `cos θ ≠ 0`, the y-snapping
`nearestGrid` moves the tip to the `nextGrid` y-line; the guard on `rv_x`
passes (the angle is nonzero) and the division by `tan θ` is an ordinary
one. -/
theorem nearestGrid_y_eq (theta ξ η : ℝ) (hs : Real.sin theta ≠ 0)
    (hc : Real.cos theta ≠ 0) :
    Ray.nearestGrid (.fin ξ) (.fin η) theta true =
      (.fin ((((nextGrid (Real.sin theta) η : ℤ) : ℝ) -
          (η - Real.tan theta * ξ)) / Real.tan theta),
       .fin ((nextGrid (Real.sin theta) η : ℤ) : ℝ)) := by
  have hθ : theta ≠ 0 := by
    intro h
    rw [h, Real.sin_zero] at hs
    exact hs rfl
  have htan : Real.tan theta ≠ 0 := by
    rw [Real.tan_eq_sin_div_cos]
    exact div_ne_zero hs hc
  simp only [Ray.nearestGrid, if_pos trivial, JSNum.isInt_fin,
    JSNum.mul_fin_fin, JSNum.sub_fin_fin]
  by_cases hf : Int.fract η = 0
  · simp only [decide_eq_true hf, Bool.not_true, Bool.false_or]
    rw [nextGrid_cast_int _ _ hs hf, if_pos (decide_eq_true hθ), if_pos trivial]
    simp only [JSNum.add_fin_fin, JSNum.sub_fin_fin,
      JSNum.div_fin_fin_of_ne _ _ htan]
  · simp only [decide_eq_false hf, Bool.not_false, Bool.true_or]
    rw [if_pos trivial, if_neg Bool.false_ne_true]
    rcases hs.lt_or_lt with h | h
    · rw [if_pos h, nextGrid, if_pos h, gridLeft, if_neg hf]
      simp only [JSNum.floor_fin, JSNum.sub_fin_fin,
        JSNum.div_fin_fin_of_ne _ _ htan]
    · rw [if_neg (not_lt.2 h.le), nextGrid, if_neg (not_lt.2 h.le), gridRight,
        if_neg hf]
      simp only [JSNum.ceil_fin, JSNum.sub_fin_fin,
        JSNum.div_fin_fin_of_ne _ _ htan]

@[simp] theorem JSNum.hypot_fin_fin (a b : ℝ) :
    JSNum.hypot (.fin a) (.fin b) = .fin (Real.sqrt (a ^ 2 + b ^ 2)) := rfl

/-- The y-intercept of the ray's line `y = tan θ · x + b`. -/
noncomputable def lineB (theta x0 y0 : ℝ) : ℝ := y0 - Real.tan theta * x0

/-- The loop state of a diagonal ray whose tip has x-coordinate `ξ`: the
tip lies on the ray's line and the accumulated distance is the Euclidean
length travelled from the origin `(x0, y0)`. -/
noncomputable def stB (theta x0 y0 ξ : ℝ) : SeekState :=
  ⟨.fin ξ, .fin (Real.tan theta * ξ + lineB theta x0 y0),
   .fin (Real.sqrt (1 + Real.tan theta ^ 2) *
     (Real.sign (Real.cos theta) * (ξ - x0)))⟩

/-- The index of the cell entered by the tip, per axis (lines 352-359 of
the source): `Math.ceil(coord - 1)` on an axis whose direction sign is
`-1`, `Math.floor(coord)` otherwise. -/
noncomputable def testCoord (sgn a : ℝ) : ℤ :=
  if sgn = -1 then ⌈a - 1⌉ else ⌊a⌋

/-- The tested cell always contains the tip coordinate in its closed unit
interval. -/
theorem testCoord_mem (sgn a : ℝ) :
    ((testCoord sgn a : ℤ) : ℝ) ≤ a ∧ a ≤ ((testCoord sgn a : ℤ) : ℝ) + 1 := by
  rw [testCoord]
  by_cases h : sgn = -1
  · rw [if_pos h]
    have h1 : a - 1 ≤ (⌈a - 1⌉ : ℝ) := Int.le_ceil _
    have h2 : (⌈a - 1⌉ : ℝ) < (a - 1) + 1 := Int.ceil_lt_add_one _
    exact ⟨by linarith, by linarith⟩
  · rw [if_neg h]
    have h1 : ((⌊a⌋ : ℤ) : ℝ) ≤ a := Int.floor_le a
    have h2 : a < (⌊a⌋ : ℝ) + 1 := Int.lt_floor_add_one a
    exact ⟨by linarith, by linarith⟩

/-- The sign identity `sign(sin θ) · tan θ = sign(cos θ) · |tan θ|`,
relating the slope's sign to the per-axis direction signs. -/
theorem sign_sin_mul_tan (theta : ℝ) (hs : Real.sin theta ≠ 0)
    (hc : Real.cos theta ≠ 0) :
    Real.sign (Real.sin theta) * Real.tan theta =
      Real.sign (Real.cos theta) * |Real.tan theta| := by
  rw [Real.tan_eq_sin_div_cos]
  rcases hs.lt_or_lt with h1 | h1 <;> rcases hc.lt_or_lt with h2 | h2
  · rw [Real.sign_of_neg h1, Real.sign_of_neg h2,
      abs_of_pos (div_pos_of_neg_of_neg h1 h2)]
    try ring
  · rw [Real.sign_of_neg h1, Real.sign_of_pos h2,
      abs_of_neg (div_neg_of_neg_of_pos h1 h2)]
    try ring
  · rw [Real.sign_of_pos h1, Real.sign_of_neg h2,
      abs_of_neg (div_neg_of_pos_of_neg h1 h2)]
    try ring
  · rw [Real.sign_of_pos h1, Real.sign_of_pos h2,
      abs_of_pos (div_pos h1 h2)]
    try ring

/-- Squared signs are 1 on nonzero arguments. -/
theorem sign_mul_self_eq_one {z : ℝ} (hz : z ≠ 0) :
    Real.sign z * Real.sign z = 1 := by
  rcases hz.lt_or_lt with h | h
  · rw [Real.sign_of_neg h]
    norm_num
  · rw [Real.sign_of_pos h]
    norm_num

/-- `|sign z · a| = |a|` on nonzero arguments. -/
theorem abs_sign_mul {z : ℝ} (hz : z ≠ 0) (a : ℝ) :
    |Real.sign z * a| = |a| := by
  rcases hz.lt_or_lt with h | h
  · rw [Real.sign_of_neg h]
    rw [abs_mul]
    norm_num
  · rw [Real.sign_of_pos h]
    rw [abs_mul]
    norm_num

/-- Branch selection of the loop body is one of the two candidate pairs. -/
theorem ite_pair_cases (c : Bool) (px py : (JSNum ℝ × JSNum ℝ) × JSNum ℝ) :
    (if c = true then px else py) = px ∨ (if c = true then px else py) = py := by
  cases c
  · right
    rfl
  · left
    rfl

/-- The entered-cell rounding of `seekCollision` (lines 352-359), written
with `testCoord`. -/
theorem testCoord_fin (sgn a : ℝ) :
    (if sgn = -1 then ((JSNum.fin a).sub (JSNum.fin 1)).ceil
     else (JSNum.fin a).floor) = .fin ((testCoord sgn a : ℤ) : ℝ) := by
  rw [testCoord]
  by_cases h : sgn = -1
  · rw [if_pos h, if_pos h]
    simp only [JSNum.sub_fin_fin, JSNum.ceil_fin]
  · rw [if_neg h, if_neg h]
    simp only [JSNum.floor_fin]

/-- Dividing by `tan θ` and multiplying by `sign (cos θ)` equals
multiplying by `sign (sin θ)` and dividing by `|tan θ|`. -/
theorem sign_div_tan (theta : ℝ) (hs : Real.sin theta ≠ 0)
    (hc : Real.cos theta ≠ 0) (u : ℝ) :
    Real.sign (Real.cos theta) * (u / Real.tan theta) =
      Real.sign (Real.sin theta) * u / |Real.tan theta| := by
  have htan : Real.tan theta ≠ 0 := by
    rw [Real.tan_eq_sin_div_cos]
    exact div_ne_zero hs hc
  have h1 := sign_sin_mul_tan theta hs hc
  rcases htan.lt_or_lt with h | h
  · rw [abs_of_neg h] at h1 ⊢
    have h2 : Real.sign (Real.sin theta) = -Real.sign (Real.cos theta) := by
      have h3 : Real.sign (Real.sin theta) * Real.tan theta =
          -Real.sign (Real.cos theta) * Real.tan theta := by
        rw [h1]
        ring
      exact mul_right_cancel₀ htan h3
    rw [h2]
    field_simp
  · rw [abs_of_pos h] at h1 ⊢
    have h2 : Real.sign (Real.sin theta) = Real.sign (Real.cos theta) := by
      have h3 : Real.sign (Real.sin theta) * Real.tan theta =
          Real.sign (Real.cos theta) * Real.tan theta := by
        rw [h1]
      exact mul_right_cancel₀ htan h3
    rw [h2, mul_div_assoc]

set_option maxHeartbeats 2000000 in
/-- One loop step of the caster at a diagonal heading (`sin θ ≠ 0` and
`cos θ ≠ 0`), started from the on-line state `stB θ x0 y0 ξ`: the tip
advances to the on-line state of some `ξ₂` one grid line further along the
travel direction, incrementing the floor of exactly one of the two
direction-adjusted coordinates and not decreasing the other; the step
returns the Miss exit when the accumulated length reaches `theDist`,
reports a hit of the (wall) entered cell, or hands the new state to the
next iteration. -/
theorem seekStep_B (w : World) (theta x0 y0 theDist : ℝ)
    (hs : Real.sin theta ≠ 0) (hc : Real.cos theta ≠ 0) (ξ : ℝ) :
    ∃ ξ₂ : ℝ,
      Real.sign (Real.cos theta) * ξ < Real.sign (Real.cos theta) * ξ₂ ∧
      ((⌊Real.sign (Real.cos theta) * ξ₂⌋ = ⌊Real.sign (Real.cos theta) * ξ⌋ + 1 ∧
          ⌊Real.sign (Real.sin theta) * (Real.tan theta * ξ + lineB theta x0 y0)⌋ ≤ ⌊Real.sign (Real.sin theta) * (Real.tan theta * ξ₂ + lineB theta x0 y0)⌋) ∨
        (⌊Real.sign (Real.sin theta) * (Real.tan theta * ξ₂ + lineB theta x0 y0)⌋ = ⌊Real.sign (Real.sin theta) * (Real.tan theta * ξ + lineB theta x0 y0)⌋ + 1 ∧
          ⌊Real.sign (Real.cos theta) * ξ⌋ ≤ ⌊Real.sign (Real.cos theta) * ξ₂⌋)) ∧
      ((Ray.seekStep w theta (Real.sign (Real.sin theta)) (Real.sign (Real.cos theta)) theDist (stB theta x0 y0 ξ) =
            .inl none ∧
          theDist ≤ Real.sqrt (1 + Real.tan theta ^ 2) * (Real.sign (Real.cos theta) * (ξ₂ - x0))) ∨
        (∃ f, Ray.seekStep w theta (Real.sign (Real.sin theta)) (Real.sign (Real.cos theta)) theDist (stB theta x0 y0 ξ) =
            .inl (some (.fin ξ₂, .fin (Real.tan theta * ξ₂ + lineB theta x0 y0), f)) ∧
          Real.sqrt (1 + Real.tan theta ^ 2) * (Real.sign (Real.cos theta) * (ξ₂ - x0)) < theDist ∧
          w.checkCollision (.fin ((testCoord (Real.sign (Real.cos theta)) ξ₂ : ℤ) : ℝ))
            (.fin ((testCoord (Real.sign (Real.sin theta)) (Real.tan theta * ξ₂ + lineB theta x0 y0) : ℤ) : ℝ)) = true) ∨
        (Ray.seekStep w theta (Real.sign (Real.sin theta)) (Real.sign (Real.cos theta)) theDist (stB theta x0 y0 ξ) =
            .inr (stB theta x0 y0 ξ₂) ∧
          Real.sqrt (1 + Real.tan theta ^ 2) * (Real.sign (Real.cos theta) * (ξ₂ - x0)) < theDist)) := by
  have htan : Real.tan theta ≠ 0 := by
    rw [Real.tan_eq_sin_div_cos]
    exact div_ne_zero hs hc
  have habs_t : 0 < |Real.tan theta| := abs_pos.2 htan
  have h1 := sign_sin_mul_tan theta hs hc
  have hXlt := sign_mul_lt_nextGrid (Real.cos theta) ξ hc
  have hXfl := floor_sign_nextGrid (Real.cos theta) ξ hc
  have hYlt := sign_mul_lt_nextGrid (Real.sin theta) (Real.tan theta * ξ + lineB theta x0 y0) hs
  have hYfl := floor_sign_nextGrid (Real.sin theta) (Real.tan theta * ξ + lineB theta x0 y0) hs
  have hXpos : 0 < Real.sign (Real.cos theta) * (((nextGrid (Real.cos theta) ξ : ℤ) : ℝ) - ξ) := by
    have hexp : Real.sign (Real.cos theta) * (((nextGrid (Real.cos theta) ξ : ℤ) : ℝ) - ξ) = Real.sign (Real.cos theta) * ((nextGrid (Real.cos theta) ξ : ℤ) : ℝ) - Real.sign (Real.cos theta) * ξ := by ring
    linarith [hXlt]
  have habsX : |((nextGrid (Real.cos theta) ξ : ℤ) : ℝ) - ξ| = Real.sign (Real.cos theta) * (((nextGrid (Real.cos theta) ξ : ℤ) : ℝ) - ξ) := by
    rw [← abs_sign_mul hc (((nextGrid (Real.cos theta) ξ : ℤ) : ℝ) - ξ)]
    exact abs_of_pos hXpos
  have hxdist : Real.sqrt ((ξ - ((nextGrid (Real.cos theta) ξ : ℤ) : ℝ)) ^ 2 +
        (Real.tan theta * ξ + lineB theta x0 y0 - (Real.tan theta * ((nextGrid (Real.cos theta) ξ : ℤ) : ℝ) + lineB theta x0 y0)) ^ 2) =
      Real.sqrt (1 + Real.tan theta ^ 2) * (Real.sign (Real.cos theta) * (((nextGrid (Real.cos theta) ξ : ℤ) : ℝ) - ξ)) := by
    rw [show (ξ - ((nextGrid (Real.cos theta) ξ : ℤ) : ℝ)) ^ 2 + (Real.tan theta * ξ + lineB theta x0 y0 - (Real.tan theta * ((nextGrid (Real.cos theta) ξ : ℤ) : ℝ) + lineB theta x0 y0)) ^ 2 =
        (1 + Real.tan theta ^ 2) * (((nextGrid (Real.cos theta) ξ : ℤ) : ℝ) - ξ) ^ 2 from by ring,
      Real.sqrt_mul (by positivity) ((((nextGrid (Real.cos theta) ξ : ℤ) : ℝ) - ξ) ^ 2), Real.sqrt_sq_eq_abs, habsX]
  have hY2 : Real.tan theta * ((((nextGrid (Real.sin theta) (Real.tan theta * ξ + lineB theta x0 y0) : ℤ) : ℝ) - lineB theta x0 y0) / Real.tan theta) + lineB theta x0 y0 = ((nextGrid (Real.sin theta) (Real.tan theta * ξ + lineB theta x0 y0) : ℤ) : ℝ) := by
    field_simp
  have hYd : 0 < Real.sign (Real.sin theta) * (((nextGrid (Real.sin theta) (Real.tan theta * ξ + lineB theta x0 y0) : ℤ) : ℝ) - (Real.tan theta * ξ + lineB theta x0 y0)) := by
    have hexp : Real.sign (Real.sin theta) * (((nextGrid (Real.sin theta) (Real.tan theta * ξ + lineB theta x0 y0) : ℤ) : ℝ) - (Real.tan theta * ξ + lineB theta x0 y0)) =
        Real.sign (Real.sin theta) * ((nextGrid (Real.sin theta) (Real.tan theta * ξ + lineB theta x0 y0) : ℤ) : ℝ) - Real.sign (Real.sin theta) * (Real.tan theta * ξ + lineB theta x0 y0) := by ring
    linarith [hYlt]
  have hdd : ((((nextGrid (Real.sin theta) (Real.tan theta * ξ + lineB theta x0 y0) : ℤ) : ℝ) - lineB theta x0 y0) / Real.tan theta) - ξ = (((nextGrid (Real.sin theta) (Real.tan theta * ξ + lineB theta x0 y0) : ℤ) : ℝ) - (Real.tan theta * ξ + lineB theta x0 y0)) / Real.tan theta := by
    field_simp
    ring
  have hXI2pos : 0 < Real.sign (Real.cos theta) * (((((nextGrid (Real.sin theta) (Real.tan theta * ξ + lineB theta x0 y0) : ℤ) : ℝ) - lineB theta x0 y0) / Real.tan theta) - ξ) := by
    rw [hdd, sign_div_tan theta hs hc (((nextGrid (Real.sin theta) (Real.tan theta * ξ + lineB theta x0 y0) : ℤ) : ℝ) - (Real.tan theta * ξ + lineB theta x0 y0))]
    exact div_pos hYd habs_t
  have hXI2lt : Real.sign (Real.cos theta) * ξ < Real.sign (Real.cos theta) * ((((nextGrid (Real.sin theta) (Real.tan theta * ξ + lineB theta x0 y0) : ℤ) : ℝ) - lineB theta x0 y0) / Real.tan theta) := by
    have hexp : Real.sign (Real.cos theta) * (((((nextGrid (Real.sin theta) (Real.tan theta * ξ + lineB theta x0 y0) : ℤ) : ℝ) - lineB theta x0 y0) / Real.tan theta) - ξ) = Real.sign (Real.cos theta) * ((((nextGrid (Real.sin theta) (Real.tan theta * ξ + lineB theta x0 y0) : ℤ) : ℝ) - lineB theta x0 y0) / Real.tan theta) - Real.sign (Real.cos theta) * ξ := by ring
    linarith [hXI2pos]
  have habsXI2 : |((((nextGrid (Real.sin theta) (Real.tan theta * ξ + lineB theta x0 y0) : ℤ) : ℝ) - lineB theta x0 y0) / Real.tan theta) - ξ| = Real.sign (Real.cos theta) * (((((nextGrid (Real.sin theta) (Real.tan theta * ξ + lineB theta x0 y0) : ℤ) : ℝ) - lineB theta x0 y0) / Real.tan theta) - ξ) := by
    rw [← abs_sign_mul hc (((((nextGrid (Real.sin theta) (Real.tan theta * ξ + lineB theta x0 y0) : ℤ) : ℝ) - lineB theta x0 y0) / Real.tan theta) - ξ)]
    exact abs_of_pos hXI2pos
  have hydist : Real.sqrt ((ξ - ((((nextGrid (Real.sin theta) (Real.tan theta * ξ + lineB theta x0 y0) : ℤ) : ℝ) - lineB theta x0 y0) / Real.tan theta)) ^ 2 + (Real.tan theta * ξ + lineB theta x0 y0 - ((nextGrid (Real.sin theta) (Real.tan theta * ξ + lineB theta x0 y0) : ℤ) : ℝ)) ^ 2) =
      Real.sqrt (1 + Real.tan theta ^ 2) * (Real.sign (Real.cos theta) * (((((nextGrid (Real.sin theta) (Real.tan theta * ξ + lineB theta x0 y0) : ℤ) : ℝ) - lineB theta x0 y0) / Real.tan theta) - ξ)) := by
    rw [show (ξ - ((((nextGrid (Real.sin theta) (Real.tan theta * ξ + lineB theta x0 y0) : ℤ) : ℝ) - lineB theta x0 y0) / Real.tan theta)) ^ 2 + (Real.tan theta * ξ + lineB theta x0 y0 - ((nextGrid (Real.sin theta) (Real.tan theta * ξ + lineB theta x0 y0) : ℤ) : ℝ)) ^ 2 =
        (1 + Real.tan theta ^ 2) * (((((nextGrid (Real.sin theta) (Real.tan theta * ξ + lineB theta x0 y0) : ℤ) : ℝ) - lineB theta x0 y0) / Real.tan theta) - ξ) ^ 2 from by
          field_simp
          ring,
      Real.sqrt_mul (by positivity) ((((((nextGrid (Real.sin theta) (Real.tan theta * ξ + lineB theta x0 y0) : ℤ) : ℝ) - lineB theta x0 y0) / Real.tan theta) - ξ) ^ 2), Real.sqrt_sq_eq_abs,
      habsXI2]
  simp only [Ray.seekStep, stB,
    nearestGrid_x_eq theta ξ (Real.tan theta * ξ + lineB theta x0 y0) hc,
    nearestGrid_y_eq theta ξ (Real.tan theta * ξ + lineB theta x0 y0) hs hc,
    JSNum.sub_fin_fin, JSNum.hypot_fin_fin, JSNum.seq_fin_fin, JSNum.lt_fin_fin]
  rcases ite_pair_cases _ _ _ with hmv | hmv
  · refine ⟨((nextGrid (Real.cos theta) ξ : ℤ) : ℝ), hXlt, Or.inl ⟨hXfl, ?_⟩, ?_⟩
    · apply Int.floor_le_floor
      have h3 : Real.sign (Real.sin theta) * (Real.tan theta * ((nextGrid (Real.cos theta) ξ : ℤ) : ℝ) + lineB theta x0 y0) - Real.sign (Real.sin theta) * (Real.tan theta * ξ + lineB theta x0 y0) =
          (Real.sign (Real.sin theta) * Real.tan theta) * (((nextGrid (Real.cos theta) ξ : ℤ) : ℝ) - ξ) := by ring
      rw [h1] at h3
      nlinarith [mul_nonneg (abs_nonneg (Real.tan theta)) hXpos.le, h3]
    · rw [hmv]
      simp only [JSNum.add_fin_fin, JSNum.le_fin_fin]
      rw [show Real.tan theta * ξ + lineB theta x0 y0 - Real.tan theta * ξ = lineB theta x0 y0 from by ring]
      rcases le_or_lt theDist (Real.sqrt (1 + Real.tan theta ^ 2) * (Real.sign (Real.cos theta) * (ξ - x0)) +
          Real.sqrt ((ξ - ((nextGrid (Real.cos theta) ξ : ℤ) : ℝ)) ^ 2 +
            (Real.tan theta * ξ + lineB theta x0 y0 - (Real.tan theta * ((nextGrid (Real.cos theta) ξ : ℤ) : ℝ) + lineB theta x0 y0)) ^ 2)) with hle | hlt
      · rw [if_pos (decide_eq_true hle)]
        refine Or.inl ⟨rfl, ?_⟩
        rw [hxdist] at hle
        nlinarith [hle]
      · rw [if_neg (by
            simp only [decide_eq_false (not_le.2 hlt)]
            exact Bool.false_ne_true)]
        simp only [testCoord_fin]
        rcases Bool.eq_false_or_eq_true (w.checkCollision
            (.fin ((testCoord (Real.sign (Real.cos theta)) ((nextGrid (Real.cos theta) ξ : ℤ) : ℝ) : ℤ) : ℝ))
            (.fin ((testCoord (Real.sign (Real.sin theta)) (Real.tan theta * ((nextGrid (Real.cos theta) ξ : ℤ) : ℝ) + lineB theta x0 y0) : ℤ) : ℝ)))
          with hcw | hcw
        · rw [hcw, if_pos rfl]
          refine Or.inr (Or.inl ⟨_, rfl, ?_, rfl⟩)
          rw [hxdist] at hlt
          nlinarith [hlt]
        · rw [hcw, if_neg Bool.false_ne_true]
          refine Or.inr (Or.inr ⟨?_, ?_⟩)
          · rw [Sum.inr.injEq, SeekState.mk.injEq]
            refine ⟨rfl, rfl, ?_⟩
            rw [JSNum.fin.injEq, hxdist]
            ring
          · rw [hxdist] at hlt
            nlinarith [hlt]
  · refine ⟨((((nextGrid (Real.sin theta) (Real.tan theta * ξ + lineB theta x0 y0) : ℤ) : ℝ) - lineB theta x0 y0) / Real.tan theta), hXI2lt, Or.inr ⟨?_, Int.floor_le_floor hXI2lt.le⟩, ?_⟩
    · rw [hY2]
      exact hYfl
    · rw [hmv]
      simp only [JSNum.add_fin_fin, JSNum.le_fin_fin]
      rw [show Real.tan theta * ξ + lineB theta x0 y0 - Real.tan theta * ξ = lineB theta x0 y0 from by ring]
      rw [hY2]
      rcases le_or_lt theDist (Real.sqrt (1 + Real.tan theta ^ 2) * (Real.sign (Real.cos theta) * (ξ - x0)) +
          Real.sqrt ((ξ - ((((nextGrid (Real.sin theta) (Real.tan theta * ξ + lineB theta x0 y0) : ℤ) : ℝ) - lineB theta x0 y0) / Real.tan theta)) ^ 2 + (Real.tan theta * ξ + lineB theta x0 y0 - ((nextGrid (Real.sin theta) (Real.tan theta * ξ + lineB theta x0 y0) : ℤ) : ℝ)) ^ 2)) with hle | hlt
      · rw [if_pos (decide_eq_true hle)]
        refine Or.inl ⟨rfl, ?_⟩
        rw [hydist] at hle
        nlinarith [hle]
      · rw [if_neg (by
            simp only [decide_eq_false (not_le.2 hlt)]
            exact Bool.false_ne_true)]
        simp only [testCoord_fin]
        rcases Bool.eq_false_or_eq_true (w.checkCollision
            (.fin ((testCoord (Real.sign (Real.cos theta)) ((((nextGrid (Real.sin theta) (Real.tan theta * ξ + lineB theta x0 y0) : ℤ) : ℝ) - lineB theta x0 y0) / Real.tan theta) : ℤ) : ℝ))
            (.fin ((testCoord (Real.sign (Real.sin theta)) ((nextGrid (Real.sin theta) (Real.tan theta * ξ + lineB theta x0 y0) : ℤ) : ℝ) : ℤ) : ℝ))) with hcw | hcw
        · rw [hcw, if_pos rfl]
          refine Or.inr (Or.inl ⟨_, rfl, ?_, rfl⟩)
          rw [hydist] at hlt
          nlinarith [hlt]
        · rw [hcw, if_neg Bool.false_ne_true]
          refine Or.inr (Or.inr ⟨?_, ?_⟩)
          · rw [Sum.inr.injEq, SeekState.mk.injEq]
            refine ⟨rfl, rfl, ?_⟩
            rw [JSNum.fin.injEq, hydist]
            ring
          · rw [hydist] at hlt
            nlinarith [hlt]

@[simp] theorem JSNum.sub_fin_pinf (a : ℝ) :
    (JSNum.fin a).sub .pinf = .ninf := rfl

@[simp] theorem JSNum.hypot_ninf_fin (b : ℝ) :
    JSNum.hypot .ninf (.fin b) = .pinf := rfl

@[simp] theorem JSNum.seq_pinf_fin (a : ℝ) :
    JSNum.seq .pinf (.fin a) = false := rfl

@[simp] theorem JSNum.lt_fin_pinf (a : ℝ) :
    JSNum.lt (.fin a) .pinf = true := rfl

/-- The loop state of a ray at heading exactly 0 whose tip has
x-coordinate `ξ`: the tip stays on the horizontal line `y = y0` and the
accumulated distance is `ξ - x0`. -/
noncomputable def stA (x0 y0 ξ : ℝ) : SeekState :=
  ⟨.fin ξ, .fin y0, .fin (ξ - x0)⟩

/-- The x-snapping `nearestGrid` at heading 0 moves the tip one x-grid
line to the right, on the same horizontal line. -/
theorem nearestGrid_A_x (ξ η : ℝ) :
    Ray.nearestGrid (.fin ξ) (.fin η) 0 false =
      (.fin ((nextGrid 1 ξ : ℤ) : ℝ), .fin η) := by
  have h := nearestGrid_x_eq 0 ξ η (by rw [Real.cos_zero]; norm_num)
  rw [Real.cos_zero, Real.tan_zero] at h
  rw [h]
  simp only [Prod.mk.injEq, JSNum.fin.injEq]
  exact ⟨trivial, by ring⟩

/-- The y-snapping `nearestGrid` at heading 0 on an integral y-coordinate:
the guard `theTheta != 0` fails, so the tip is left in place (no division
is attempted). -/
theorem nearestGrid_A_y_int (ξ η : ℝ) (hf : Int.fract η = 0) :
    Ray.nearestGrid (.fin ξ) (.fin η) 0 true = (.fin ξ, .fin (η + 0)) := by
  simp only [Ray.nearestGrid, if_pos trivial, JSNum.isInt_fin,
    decide_eq_true hf, Real.sin_zero, Real.sign_zero, JSNum.add_fin_fin,
    Bool.not_true, decide_eq_false (show ¬((0 : ℝ) ≠ 0) from by norm_num),
    Bool.false_or]
  rw [if_neg Bool.false_ne_true]

/-- The y-snapping `nearestGrid` at heading 0 on a non-integral
y-coordinate: the division `(⌈y⌉ - b) / tan 0` is a JavaScript division of
a positive number by zero, yielding `+∞`. -/
theorem nearestGrid_A_y_frac (ξ η : ℝ) (hf : Int.fract η ≠ 0) :
    Ray.nearestGrid (.fin ξ) (.fin η) 0 true =
      (.pinf, .fin ((⌈η⌉ : ℤ) : ℝ)) := by
  have hceil : η < ((⌈η⌉ : ℤ) : ℝ) := by
    rcases lt_or_eq_of_le (Int.le_ceil η) with h | h
    · exact h
    · exact absurd (by rw [h, Int.fract_intCast]) hf
  simp only [Ray.nearestGrid, if_pos trivial, JSNum.isInt_fin,
    decide_eq_false hf, Real.sin_zero, Real.tan_zero, Bool.not_false,
    Bool.true_or, JSNum.mul_fin_fin, JSNum.sub_fin_fin, JSNum.ceil_fin]
  rw [if_neg (by norm_num : ¬((0 : ℝ) < 0))]
  rw [if_neg Bool.false_ne_true]
  simp only [JSNum.sub_fin_fin]
  rw [JSNum.div_fin_zero_of_pos _ (by
    have h00 : (0 : ℝ) * ξ = 0 := by ring
    linarith [hceil])]

/-- One loop step of the caster at heading exactly 0, from the state
`stA x0 y0 ξ`: the y-crossing candidate is either at distance 0 (integral
`y0`; the guard keeps the tip in place) or at distance `+∞` (the division
by `tan 0`), so the x-crossing one grid line to the right is always taken;
the step then exits Miss at the distance cap, reports a hit of the entered
cell, or continues. -/
theorem seekStep_A (w : World) (x0 y0 theDist ξ : ℝ) :
    (Ray.seekStep w 0 0 1 theDist (stA x0 y0 ξ) = .inl none ∧
        theDist ≤ ((nextGrid (1 : ℝ) ξ : ℤ) : ℝ) - x0) ∨
    (∃ f, Ray.seekStep w 0 0 1 theDist (stA x0 y0 ξ) =
        .inl (some (.fin ((nextGrid (1 : ℝ) ξ : ℤ) : ℝ), .fin y0, f)) ∧
      ((nextGrid (1 : ℝ) ξ : ℤ) : ℝ) - x0 < theDist ∧
      w.checkCollision (.fin ((nextGrid (1 : ℝ) ξ : ℤ) : ℝ)) (.fin ((⌊y0⌋ : ℤ) : ℝ)) = true) ∨
    (Ray.seekStep w 0 0 1 theDist (stA x0 y0 ξ) =
        .inr (stA x0 y0 ((nextGrid (1 : ℝ) ξ : ℤ) : ℝ)) ∧
      ((nextGrid (1 : ℝ) ξ : ℤ) : ℝ) - x0 < theDist) := by
  have hXAlt : ξ < ((nextGrid (1 : ℝ) ξ : ℤ) : ℝ) := by
    rw [show nextGrid (1 : ℝ) ξ = gridRight ξ from if_neg (by norm_num)]
    exact lt_gridRight ξ
  have hxd : Real.sqrt ((ξ - ((nextGrid (1 : ℝ) ξ : ℤ) : ℝ)) ^ 2 + (y0 - y0) ^ 2) = ((nextGrid (1 : ℝ) ξ : ℤ) : ℝ) - ξ := by
    rw [show (ξ - ((nextGrid (1 : ℝ) ξ : ℤ) : ℝ)) ^ 2 + (y0 - y0) ^ 2 = (((nextGrid (1 : ℝ) ξ : ℤ) : ℝ) - ξ) ^ 2 from by ring,
      Real.sqrt_sq (by linarith [hXAlt])]
  by_cases hfy : Int.fract y0 = 0
  · have h0 : Real.sqrt ((ξ - ξ) ^ 2 + (y0 - (y0 + 0)) ^ 2) = 0 := by
      rw [show (ξ - ξ) ^ 2 + (y0 - (y0 + 0)) ^ 2 = 0 from by ring]
      exact Real.sqrt_zero
    simp only [Ray.seekStep, stA, nearestGrid_A_x,
      nearestGrid_A_y_int ξ y0 hfy, JSNum.sub_fin_fin, JSNum.hypot_fin_fin,
      JSNum.seq_fin_fin, JSNum.lt_fin_fin]
    simp only [h0, decide_eq_true (show (0 : ℝ) = 0 from rfl), decide_True,
      Bool.true_or]
    rw [if_pos trivial]
    simp only [JSNum.add_fin_fin, JSNum.le_fin_fin]
    rw [hxd, show ξ - x0 + (((nextGrid (1 : ℝ) ξ : ℤ) : ℝ) - ξ) = ((nextGrid (1 : ℝ) ξ : ℤ) : ℝ) - x0 from by ring]
    rcases le_or_lt theDist (((nextGrid (1 : ℝ) ξ : ℤ) : ℝ) - x0) with hle | hlt
    · rw [if_pos (decide_eq_true hle)]
      exact Or.inl ⟨rfl, hle⟩
    · rw [if_neg (by
          simp only [decide_eq_false (not_le.2 hlt)]
          exact Bool.false_ne_true)]
      rw [if_neg (by norm_num : ¬((1 : ℝ) = -1)),
        if_neg (by norm_num : ¬((0 : ℝ) = -1))]
      simp only [JSNum.floor_fin, Int.floor_intCast]
      rcases Bool.eq_false_or_eq_true (w.checkCollision (.fin ((nextGrid (1 : ℝ) ξ : ℤ) : ℝ))
          (.fin ((⌊y0⌋ : ℤ) : ℝ))) with hcw | hcw
      · rw [hcw, if_pos rfl]
        exact Or.inr (Or.inl ⟨_, rfl, hlt, rfl⟩)
      · rw [hcw, if_neg Bool.false_ne_true]
        exact Or.inr (Or.inr ⟨rfl, hlt⟩)
  · simp only [Ray.seekStep, stA, nearestGrid_A_x,
      nearestGrid_A_y_frac ξ y0 hfy, JSNum.sub_fin_pinf, JSNum.sub_fin_fin,
      JSNum.hypot_ninf_fin, JSNum.hypot_fin_fin, JSNum.seq_pinf_fin,
      JSNum.lt_fin_pinf, Bool.false_or]
    rw [if_pos trivial]
    simp only [JSNum.add_fin_fin, JSNum.le_fin_fin]
    rw [hxd, show ξ - x0 + (((nextGrid (1 : ℝ) ξ : ℤ) : ℝ) - ξ) = ((nextGrid (1 : ℝ) ξ : ℤ) : ℝ) - x0 from by ring]
    rcases le_or_lt theDist (((nextGrid (1 : ℝ) ξ : ℤ) : ℝ) - x0) with hle | hlt
    · rw [if_pos (decide_eq_true hle)]
      exact Or.inl ⟨rfl, hle⟩
    · rw [if_neg (by
          simp only [decide_eq_false (not_le.2 hlt)]
          exact Bool.false_ne_true)]
      rw [if_neg (by norm_num : ¬((1 : ℝ) = -1)),
        if_neg (by norm_num : ¬((0 : ℝ) = -1))]
      simp only [JSNum.floor_fin, Int.floor_intCast]
      rcases Bool.eq_false_or_eq_true (w.checkCollision (.fin ((nextGrid (1 : ℝ) ξ : ℤ) : ℝ))
          (.fin ((⌊y0⌋ : ℤ) : ℝ))) with hcw | hcw
      · rw [hcw, if_pos rfl]
        exact Or.inr (Or.inl ⟨_, rfl, hlt, rfl⟩)
      · rw [hcw, if_neg Bool.false_ne_true]
        exact Or.inr (Or.inr ⟨rfl, hlt⟩)

/-- When a diagonal step hands the loop a new state inside the distance
cap, the new tip still lies ahead of the origin and both direction-adjusted
floors stay within the window allowed by `theDist`. -/
theorem stepB_cont_window (theta x0 y0 theDist : ℝ)
    (hs : Real.sin theta ≠ 0) (hc : Real.cos theta ≠ 0) (ξ ξ₂ : ℝ)
    (h0 : 0 ≤ Real.sign (Real.cos theta) * (ξ - x0)) (hlt2 : Real.sign (Real.cos theta) * ξ < Real.sign (Real.cos theta) * ξ₂)
    (hb : Real.sqrt (1 + Real.tan theta ^ 2) * (Real.sign (Real.cos theta) * (ξ₂ - x0)) < theDist) :
    0 ≤ Real.sign (Real.cos theta) * (ξ₂ - x0) ∧
    ⌊Real.sign (Real.cos theta) * ξ₂⌋ ≤ ⌊Real.sign (Real.cos theta) * x0 + theDist⌋ ∧
    ⌊Real.sign (Real.sin theta) * (Real.tan theta * ξ₂ + lineB theta x0 y0)⌋ ≤ ⌊Real.sign (Real.sin theta) * y0 + theDist⌋ := by
  have htan : Real.tan theta ≠ 0 := by
    rw [Real.tan_eq_sin_div_cos]
    exact div_ne_zero hs hc
  have h1 := sign_sin_mul_tan theta hs hc
  have hS1 : (1 : ℝ) ≤ Real.sqrt (1 + Real.tan theta ^ 2) := by
    have h4 : Real.sqrt 1 ≤ Real.sqrt (1 + Real.tan theta ^ 2) :=
      Real.sqrt_le_sqrt (by nlinarith [sq_nonneg (Real.tan theta)])
    rw [Real.sqrt_one] at h4
    exact h4
  have htS : |Real.tan theta| ≤ Real.sqrt (1 + Real.tan theta ^ 2) := by
    have h4 : Real.sqrt (Real.tan theta ^ 2) ≤
        Real.sqrt (1 + Real.tan theta ^ 2) :=
      Real.sqrt_le_sqrt (by nlinarith)
    rw [Real.sqrt_sq_eq_abs] at h4
    exact h4
  have h0₂ : 0 ≤ Real.sign (Real.cos theta) * (ξ₂ - x0) := by
    have he1 : Real.sign (Real.cos theta) * (ξ₂ - x0) = Real.sign (Real.cos theta) * ξ₂ - Real.sign (Real.cos theta) * x0 := by ring
    have he2 : Real.sign (Real.cos theta) * (ξ - x0) = Real.sign (Real.cos theta) * ξ - Real.sign (Real.cos theta) * x0 := by ring
    linarith [hlt2]
  have hu : Real.sign (Real.cos theta) * (ξ₂ - x0) ≤ Real.sqrt (1 + Real.tan theta ^ 2) * (Real.sign (Real.cos theta) * (ξ₂ - x0)) := by
    nlinarith [mul_nonneg (by linarith [hS1] : (0 : ℝ) ≤ Real.sqrt (1 + Real.tan theta ^ 2) - 1) h0₂]
  refine ⟨h0₂, ?_, ?_⟩
  · apply Int.floor_le_floor
    have he1 : Real.sign (Real.cos theta) * (ξ₂ - x0) = Real.sign (Real.cos theta) * ξ₂ - Real.sign (Real.cos theta) * x0 := by ring
    linarith [hb, hu]
  · apply Int.floor_le_floor
    have hyv : Real.sign (Real.sin theta) * (Real.tan theta * ξ₂ + lineB theta x0 y0) - Real.sign (Real.sin theta) * y0 =
        (Real.sign (Real.sin theta) * Real.tan theta) * (ξ₂ - x0) := by
      rw [lineB]
      ring
    have hyb : (Real.sign (Real.sin theta) * Real.tan theta) * (ξ₂ - x0) ≤ Real.sqrt (1 + Real.tan theta ^ 2) * (Real.sign (Real.cos theta) * (ξ₂ - x0)) := by
      rw [h1]
      nlinarith [mul_le_mul_of_nonneg_right htS h0₂]
    linarith [hb, hyv, hyb]

/-- Fuel-indexed totality of the caster's loop at a diagonal heading: with
fuel exceeding the remaining window measure, the loop returns. -/
theorem seekAux_B_total (w : World) (theta x0 y0 theDist : ℝ)
    (hs : Real.sin theta ≠ 0) (hc : Real.cos theta ≠ 0) :
    ∀ (n : ℕ) (ξ : ℝ), 0 ≤ Real.sign (Real.cos theta) * (ξ - x0) →
      (⌊Real.sign (Real.cos theta) * x0 + theDist⌋ + 1 - ⌊Real.sign (Real.cos theta) * ξ⌋).toNat +
        (⌊Real.sign (Real.sin theta) * y0 + theDist⌋ + 1 - ⌊Real.sign (Real.sin theta) * (Real.tan theta * ξ + lineB theta x0 y0)⌋).toNat ≤ n →
      ∃ r, Ray.seekAux w theta (Real.sign (Real.sin theta)) (Real.sign (Real.cos theta)) theDist (n + 1)
        (stB theta x0 y0 ξ) = some r := by
  intro n
  induction n with
  | zero =>
    intro ξ h0 hμ
    obtain ⟨ξ₂, hlt2, hfl2, htri⟩ := seekStep_B w theta x0 y0 theDist hs hc ξ
    rcases htri with ⟨hst, hb⟩ | ⟨f, hst, hb, hcw⟩ | ⟨hst, hb⟩
    · exact ⟨none, by rw [Ray.seekAux_succ, hst]⟩
    · exact ⟨_, by rw [Ray.seekAux_succ, hst]⟩
    · exfalso
      obtain ⟨h0₂, hw1, hw2⟩ :=
        stepB_cont_window theta x0 y0 theDist hs hc ξ ξ₂ h0 hlt2 hb
      rcases hfl2 with ⟨hx1, hy1⟩ | ⟨hy1, hx1⟩ <;> omega
  | succ n ih =>
    intro ξ h0 hμ
    obtain ⟨ξ₂, hlt2, hfl2, htri⟩ := seekStep_B w theta x0 y0 theDist hs hc ξ
    rcases htri with ⟨hst, hb⟩ | ⟨f, hst, hb, hcw⟩ | ⟨hst, hb⟩
    · exact ⟨none, by rw [Ray.seekAux_succ, hst]⟩
    · exact ⟨_, by rw [Ray.seekAux_succ, hst]⟩
    · obtain ⟨h0₂, hw1, hw2⟩ :=
        stepB_cont_window theta x0 y0 theDist hs hc ξ ξ₂ h0 hlt2 hb
      obtain ⟨r, hr⟩ := ih ξ₂ h0₂ (by
        rcases hfl2 with ⟨hx1, hy1⟩ | ⟨hy1, hx1⟩ <;> omega)
      refine ⟨r, ?_⟩
      rw [Ray.seekAux_succ, hst]
      exact hr

/-- Fuel-indexed Miss-correctness of the loop at a diagonal heading: if no
wall cell touches the ray's forward path within `theDist`, the loop (with
enough fuel) returns the all-null Miss. -/
theorem seekAux_B_miss (w : World) (theta x0 y0 theDist : ℝ)
    (hs : Real.sin theta ≠ 0) (hc : Real.cos theta ≠ 0)
    (hnw : ∀ (i j : ℤ) (px : ℝ),
      w.checkCollision (.fin ((i : ℤ) : ℝ)) (.fin ((j : ℤ) : ℝ)) = true →
      0 ≤ Real.sign (Real.cos theta) * (px - x0) →
      Real.sqrt (1 + Real.tan theta ^ 2) * (Real.sign (Real.cos theta) * (px - x0)) ≤ theDist →
      (i : ℝ) ≤ px → px ≤ (i : ℝ) + 1 →
      (j : ℝ) ≤ Real.tan theta * px + lineB theta x0 y0 → Real.tan theta * px + lineB theta x0 y0 ≤ (j : ℝ) + 1 → False) :
    ∀ (n : ℕ) (ξ : ℝ), 0 ≤ Real.sign (Real.cos theta) * (ξ - x0) →
      (⌊Real.sign (Real.cos theta) * x0 + theDist⌋ + 1 - ⌊Real.sign (Real.cos theta) * ξ⌋).toNat +
        (⌊Real.sign (Real.sin theta) * y0 + theDist⌋ + 1 - ⌊Real.sign (Real.sin theta) * (Real.tan theta * ξ + lineB theta x0 y0)⌋).toNat ≤ n →
      Ray.seekAux w theta (Real.sign (Real.sin theta)) (Real.sign (Real.cos theta)) theDist (n + 1)
        (stB theta x0 y0 ξ) = some none := by
  intro n
  induction n with
  | zero =>
    intro ξ h0 hμ
    obtain ⟨ξ₂, hlt2, hfl2, htri⟩ := seekStep_B w theta x0 y0 theDist hs hc ξ
    rcases htri with ⟨hst, hb⟩ | ⟨f, hst, hb, hcw⟩ | ⟨hst, hb⟩
    · rw [Ray.seekAux_succ, hst]
    · exfalso
      obtain ⟨h0₂, hw1, hw2⟩ :=
        stepB_cont_window theta x0 y0 theDist hs hc ξ ξ₂ h0 hlt2 hb
      exact hnw _ _ ξ₂ hcw h0₂ hb.le (testCoord_mem _ ξ₂).1
        (testCoord_mem _ ξ₂).2 (testCoord_mem _ _).1 (testCoord_mem _ _).2
    · exfalso
      obtain ⟨h0₂, hw1, hw2⟩ :=
        stepB_cont_window theta x0 y0 theDist hs hc ξ ξ₂ h0 hlt2 hb
      rcases hfl2 with ⟨hx1, hy1⟩ | ⟨hy1, hx1⟩ <;> omega
  | succ n ih =>
    intro ξ h0 hμ
    obtain ⟨ξ₂, hlt2, hfl2, htri⟩ := seekStep_B w theta x0 y0 theDist hs hc ξ
    rcases htri with ⟨hst, hb⟩ | ⟨f, hst, hb, hcw⟩ | ⟨hst, hb⟩
    · rw [Ray.seekAux_succ, hst]
    · exfalso
      obtain ⟨h0₂, hw1, hw2⟩ :=
        stepB_cont_window theta x0 y0 theDist hs hc ξ ξ₂ h0 hlt2 hb
      exact hnw _ _ ξ₂ hcw h0₂ hb.le (testCoord_mem _ ξ₂).1
        (testCoord_mem _ ξ₂).2 (testCoord_mem _ _).1 (testCoord_mem _ _).2
    · obtain ⟨h0₂, hw1, hw2⟩ :=
        stepB_cont_window theta x0 y0 theDist hs hc ξ ξ₂ h0 hlt2 hb
      rw [Ray.seekAux_succ, hst]
      exact ih ξ₂ h0₂ (by rcases hfl2 with ⟨hx1, hy1⟩ | ⟨hy1, hx1⟩ <;> omega)

/-- Fuel-indexed totality of the caster's loop at heading exactly 0. -/
theorem seekAux_A_total (w : World) (x0 y0 theDist : ℝ) :
    ∀ (n : ℕ) (ξ : ℝ), x0 ≤ ξ →
      (⌊x0 + theDist⌋ + 1 - ⌊ξ⌋).toNat ≤ n →
      ∃ r, Ray.seekAux w 0 0 1 theDist (n + 1) (stA x0 y0 ξ) = some r := by
  intro n
  induction n with
  | zero =>
    intro ξ h0 hμ
    have hgr : nextGrid (1 : ℝ) ξ = ⌊ξ⌋ + 1 := by
      rw [show nextGrid (1 : ℝ) ξ = gridRight ξ from if_neg (by norm_num),
        gridRight_eq]
    rcases seekStep_A w x0 y0 theDist ξ with ⟨hst, hb⟩ | ⟨f, hst, hb, hcw⟩ |
      ⟨hst, hb⟩
    · exact ⟨none, by rw [Ray.seekAux_succ, hst]⟩
    · exact ⟨_, by rw [Ray.seekAux_succ, hst]⟩
    · exfalso
      have hw : nextGrid (1 : ℝ) ξ ≤ ⌊x0 + theDist⌋ :=
        Int.le_floor.2 (by linarith [hb])
      omega
  | succ n ih =>
    intro ξ h0 hμ
    have hgr : nextGrid (1 : ℝ) ξ = ⌊ξ⌋ + 1 := by
      rw [show nextGrid (1 : ℝ) ξ = gridRight ξ from if_neg (by norm_num),
        gridRight_eq]
    have hlt : ξ < ((nextGrid (1 : ℝ) ξ : ℤ) : ℝ) := by
      rw [hgr]
      push_cast
      exact Int.lt_floor_add_one ξ
    have hfl : ⌊((nextGrid (1 : ℝ) ξ : ℤ) : ℝ)⌋ = ⌊ξ⌋ + 1 := by
      rw [Int.floor_intCast, hgr]
    rcases seekStep_A w x0 y0 theDist ξ with ⟨hst, hb⟩ | ⟨f, hst, hb, hcw⟩ |
      ⟨hst, hb⟩
    · exact ⟨none, by rw [Ray.seekAux_succ, hst]⟩
    · exact ⟨_, by rw [Ray.seekAux_succ, hst]⟩
    · have hw : nextGrid (1 : ℝ) ξ ≤ ⌊x0 + theDist⌋ :=
        Int.le_floor.2 (by linarith [hb])
      obtain ⟨r, hr⟩ := ih ((nextGrid (1 : ℝ) ξ : ℤ) : ℝ) (by linarith)
        (by omega)
      refine ⟨r, ?_⟩
      rw [Ray.seekAux_succ, hst]
      exact hr

/-- Fuel-indexed Miss-correctness of the loop at heading exactly 0: if no
wall cell touches the horizontal forward path within `theDist`, the loop
returns the all-null Miss. -/
theorem seekAux_A_miss (w : World) (x0 y0 theDist : ℝ)
    (hnw : ∀ (i j : ℤ) (px : ℝ),
      w.checkCollision (.fin ((i : ℤ) : ℝ)) (.fin ((j : ℤ) : ℝ)) = true →
      x0 ≤ px → px - x0 ≤ theDist →
      (i : ℝ) ≤ px → px ≤ (i : ℝ) + 1 →
      (j : ℝ) ≤ y0 → y0 ≤ (j : ℝ) + 1 → False) :
    ∀ (n : ℕ) (ξ : ℝ), x0 ≤ ξ →
      (⌊x0 + theDist⌋ + 1 - ⌊ξ⌋).toNat ≤ n →
      Ray.seekAux w 0 0 1 theDist (n + 1) (stA x0 y0 ξ) = some none := by
  intro n
  induction n with
  | zero =>
    intro ξ h0 hμ
    have hgr : nextGrid (1 : ℝ) ξ = ⌊ξ⌋ + 1 := by
      rw [show nextGrid (1 : ℝ) ξ = gridRight ξ from if_neg (by norm_num),
        gridRight_eq]
    have hlt : ξ < ((nextGrid (1 : ℝ) ξ : ℤ) : ℝ) := by
      rw [hgr]
      push_cast
      exact Int.lt_floor_add_one ξ
    rcases seekStep_A w x0 y0 theDist ξ with ⟨hst, hb⟩ | ⟨f, hst, hb, hcw⟩ |
      ⟨hst, hb⟩
    · rw [Ray.seekAux_succ, hst]
    · exact absurd hcw (fun hcw => hnw _ _ _ hcw (by linarith) hb.le
        le_rfl (by linarith) (Int.floor_le y0) (Int.lt_floor_add_one y0).le)
    · exfalso
      have hw : nextGrid (1 : ℝ) ξ ≤ ⌊x0 + theDist⌋ :=
        Int.le_floor.2 (by linarith [hb])
      omega
  | succ n ih =>
    intro ξ h0 hμ
    have hgr : nextGrid (1 : ℝ) ξ = ⌊ξ⌋ + 1 := by
      rw [show nextGrid (1 : ℝ) ξ = gridRight ξ from if_neg (by norm_num),
        gridRight_eq]
    have hlt : ξ < ((nextGrid (1 : ℝ) ξ : ℤ) : ℝ) := by
      rw [hgr]
      push_cast
      exact Int.lt_floor_add_one ξ
    have hfl : ⌊((nextGrid (1 : ℝ) ξ : ℤ) : ℝ)⌋ = ⌊ξ⌋ + 1 := by
      rw [Int.floor_intCast, hgr]
    rcases seekStep_A w x0 y0 theDist ξ with ⟨hst, hb⟩ | ⟨f, hst, hb, hcw⟩ |
      ⟨hst, hb⟩
    · rw [Ray.seekAux_succ, hst]
    · exact absurd hcw (fun hcw => hnw _ _ _ hcw (by linarith) hb.le
        le_rfl (by linarith) (Int.floor_le y0) (Int.lt_floor_add_one y0).le)
    · have hw : nextGrid (1 : ℝ) ξ ≤ ⌊x0 + theDist⌋ :=
        Int.le_floor.2 (by linarith [hb])
      rw [Ray.seekAux_succ, hst]
      exact ih ((nextGrid (1 : ℝ) ξ : ℤ) : ℝ) (by linarith) (by omega)

/-- Claim C5 (amended): `cast()` terminates — its loop returns within the
`fuelBound` iteration budget, a function of the maximum cast distance alone
— for every origin and maximum distance, at heading exactly 0 and at every
heading whose sine and cosine are both nonzero (every non-axis-aligned
heading; IEEE doubles near the axis-aligned angles also satisfy this).  The
claim's unrestricted quantification over headings is refuted by
`c5_counterexample`: at the exact-real heading π on an integral-y origin
the loop diverges. -/
theorem c5_amended (r : Ray ℝ)
    (h : r.theta = 0 ∨ (Real.sin r.theta ≠ 0 ∧ Real.cos r.theta ≠ 0)) :
    ∃ res, Ray.seekCollision r = some res := by
  obtain ⟨x0, y0, theta, w, theDist⟩ := r
  rcases h with h0 | ⟨hs, hc⟩
  · subst h0
    simp only [Ray.seekCollision, Real.sin_zero, Real.cos_zero,
      Real.sign_zero, Real.sign_one]
    rw [show (⟨.fin x0, .fin y0, .fin 0⟩ : SeekState) = stA x0 y0 x0 from by
      rw [stA, sub_self]]
    rw [show Ray.fuelBound theDist =
        (2 * ((Int.ceil theDist).toNat + 4) - 1) + 1 from by
      rw [Ray.fuelBound]
      omega]
    apply seekAux_A_total w x0 y0 theDist _ x0 le_rfl
    have hfloor : ⌊x0 + theDist⌋ ≤ ⌊x0⌋ + ⌈theDist⌉ := by
      have h5 : ⌊x0 + theDist⌋ ≤ ⌊x0 + (⌈theDist⌉ : ℝ)⌋ :=
        Int.floor_le_floor (by linarith [Int.le_ceil theDist])
      rw [Int.floor_add_int] at h5
      exact h5
    have h6 := Int.self_le_toNat ⌈theDist⌉
    omega
  · simp only [Ray.seekCollision]
    rw [show (⟨.fin x0, .fin y0, .fin 0⟩ : SeekState) = stB theta x0 y0 x0 from by
      rw [stB, lineB]
      simp only [SeekState.mk.injEq, JSNum.fin.injEq]
      exact ⟨trivial, by ring, by ring⟩]
    rw [show Ray.fuelBound theDist =
        (2 * ((Int.ceil theDist).toNat + 4) - 1) + 1 from by
      rw [Ray.fuelBound]
      omega]
    apply seekAux_B_total w theta x0 y0 theDist hs hc _ x0 (by
      rw [sub_self, mul_zero])
    have hy0 : Real.tan theta * x0 + lineB theta x0 y0 = y0 := by
      rw [lineB]
      ring
    rw [hy0]
    have hfx : ⌊Real.sign (Real.cos theta) * x0 + theDist⌋ ≤ ⌊Real.sign (Real.cos theta) * x0⌋ + ⌈theDist⌉ := by
      have h5 : ⌊Real.sign (Real.cos theta) * x0 + theDist⌋ ≤ ⌊Real.sign (Real.cos theta) * x0 + (⌈theDist⌉ : ℝ)⌋ :=
        Int.floor_le_floor (by linarith [Int.le_ceil theDist])
      rw [Int.floor_add_int] at h5
      exact h5
    have hfy : ⌊Real.sign (Real.sin theta) * y0 + theDist⌋ ≤ ⌊Real.sign (Real.sin theta) * y0⌋ + ⌈theDist⌉ := by
      have h5 : ⌊Real.sign (Real.sin theta) * y0 + theDist⌋ ≤ ⌊Real.sign (Real.sin theta) * y0 + (⌈theDist⌉ : ℝ)⌋ :=
        Int.floor_le_floor (by linarith [Int.le_ceil theDist])
      rw [Int.floor_add_int] at h5
      exact h5
    have h6 := Int.self_le_toNat ⌈theDist⌉
    omega

/-- Witness for `c5_amended`: the coherent heading 0 of the spec's concrete
ray satisfies the hypothesis, and the cast returns. -/
theorem c5_witness : ∃ res, Ray.seekCollision rayC1 = some res :=
  c5_amended rayC1 (Or.inl rfl)

/-- The hypothesis of claim C7, formalised: some wall cell of the world
touches the ray's forward straight-line path within the maximum cast
distance.  The path is parametrised by the x-coordinate `px` of its points
(adequate for every heading the caster completes on: heading 0 and the
headings with nonzero cosine); the point of the line above `px` is
`(px, tan θ · px + b)` with `b` the line's intercept, it lies forward when
`sign(cos θ) · (px - x) ≥ 0`, its distance from the origin is
`√(1 + tan² θ) · sign(cos θ) · (px - x)`, and a cell touches the path when
the point lies in its closed unit square — the same contact notion as the
walker's entered-cell rounding, whose tested cell always contains the tip
(`testCoord_mem`). -/
def Ray.pathMeetsWall (r : Ray ℝ) : Prop :=
  ∃ (i j : ℤ) (px : ℝ),
    r.world.checkCollision (.fin ((i : ℤ) : ℝ)) (.fin ((j : ℤ) : ℝ)) = true ∧
    0 ≤ Real.sign (Real.cos r.theta) * (px - r.x) ∧
    Real.sqrt (1 + Real.tan r.theta ^ 2) *
      (Real.sign (Real.cos r.theta) * (px - r.x)) ≤ r.dist ∧
    (i : ℝ) ≤ px ∧ px ≤ (i : ℝ) + 1 ∧
    (j : ℝ) ≤ Real.tan r.theta * px + lineB r.theta r.x r.y ∧
    Real.tan r.theta * px + lineB r.theta r.x r.y ≤ (j : ℝ) + 1

/-- A 2×2 world with no wall at all. -/
def wEmpty : World := ⟨[[0, 0], [0, 0]]⟩

theorem wEmpty_tile_zero :
    ∀ a b : ℕ, ((([[0, 0], [0, 0]] : List (List ℤ)).getD a []).getD b 0) = 0 := by
  intro a b
  rcases a with _ | _ | a <;> rcases b with _ | _ | b <;> rfl

/-- No point collides in the empty world. -/
theorem wEmpty_checkCollision (qx qy : ℝ) :
    wEmpty.checkCollision (.fin qx) (.fin qy) = false := by
  rw [World.checkCollision_fin_fin]
  simp only [wEmpty, wEmpty_tile_zero,
    decide_eq_false (by norm_num : ¬((0 : ℤ) = 1)), Bool.and_false]

/-- The heading-π ray of the divergence scenario, cast in the empty world:
its straight-line path meets no wall, yet the cast does not return Miss. -/
noncomputable def rayPiEmpty : Ray ℝ := ⟨3 / 2, 1, Real.pi, wEmpty, 16⟩

/-- C7 counterexample: a ray whose straight-line path never reaches a wall
cell within the maximum distance (the world has no wall at all), but whose
cast never returns at all — let alone Miss: at the exact-real heading π on
an integral-y origin the loop diverges on NaN data, so the claim's
conclusion fails.  (IEEE JavaScript escapes only because no double is
exactly π.) -/
theorem c7_counterexample :
    ¬ Ray.pathMeetsWall rayPiEmpty ∧
      Ray.seekCollision rayPiEmpty ≠ some none := by
  constructor
  · rintro ⟨i, j, px, hcw, -⟩
    rw [show rayPiEmpty.world = wEmpty from rfl, wEmpty_checkCollision] at hcw
    exact Bool.false_ne_true hcw
  · intro hcontra
    have hnone : Ray.seekCollision rayPiEmpty = none := by
      have hss : Real.sign (Real.sin Real.pi) = 0 := by
        rw [Real.sin_pi, Real.sign_zero]
      have hsc : Real.sign (Real.cos Real.pi) = -1 := by
        rw [Real.cos_pi]
        exact Real.sign_of_neg (by norm_num)
      show Ray.seekAux wEmpty Real.pi (Real.sign (Real.sin Real.pi))
        (Real.sign (Real.cos Real.pi)) 16 (Ray.fuelBound 16)
        ⟨.fin (3 / 2), .fin 1, .fin 0⟩ = none
      rw [hss, hsc]
      exact seekAux_pi_none wEmpty 16 _
    rw [hnone] at hcontra
    exact Option.noConfusion hcontra

/-- Claim C7 (amended): for rays at heading exactly 0 or at a heading with
nonzero sine and cosine, if no wall cell touches the forward straight-line
path within the maximum cast distance, then `cast()` returns the all-null
Miss.  The claim's unrestricted quantification is refuted by
`c7_counterexample`: at the exact-real heading π the cast diverges even in
a wall-free world. -/
theorem c7_amended (r : Ray ℝ)
    (h : r.theta = 0 ∨ (Real.sin r.theta ≠ 0 ∧ Real.cos r.theta ≠ 0))
    (hnw : ¬ Ray.pathMeetsWall r) :
    Ray.seekCollision r = some none := by
  obtain ⟨x0, y0, theta, w, theDist⟩ := r
  rcases h with h0 | ⟨hs, hc⟩
  · subst h0
    simp only [Ray.seekCollision, Real.sin_zero, Real.cos_zero,
      Real.sign_zero, Real.sign_one]
    rw [show (⟨.fin x0, .fin y0, .fin 0⟩ : SeekState) = stA x0 y0 x0 from by
      rw [stA, sub_self]]
    rw [show Ray.fuelBound theDist =
        (2 * ((Int.ceil theDist).toNat + 4) - 1) + 1 from by
      rw [Ray.fuelBound]
      omega]
    apply seekAux_A_miss w x0 y0 theDist ?_ _ x0 le_rfl ?_
    · intro i j px hcw h1 h2 h3 h4 h5 h6
      refine hnw ⟨i, j, px, hcw, ?_, ?_, h3, h4, ?_, ?_⟩
      · rw [Real.cos_zero, Real.sign_one, one_mul]
        linarith
      · rw [Real.tan_zero, Real.cos_zero, Real.sign_one, one_mul,
          show (1 : ℝ) + 0 ^ 2 = 1 from by norm_num, Real.sqrt_one, one_mul]
        linarith
      · rw [show Real.tan 0 * px + lineB 0 x0 y0 = y0 from by
          rw [lineB, Real.tan_zero]
          ring]
        exact h5
      · rw [show Real.tan 0 * px + lineB 0 x0 y0 = y0 from by
          rw [lineB, Real.tan_zero]
          ring]
        exact h6
    · have hfloor : ⌊x0 + theDist⌋ ≤ ⌊x0⌋ + ⌈theDist⌉ := by
        have h5 : ⌊x0 + theDist⌋ ≤ ⌊x0 + (⌈theDist⌉ : ℝ)⌋ :=
          Int.floor_le_floor (by linarith [Int.le_ceil theDist])
        rw [Int.floor_add_int] at h5
        exact h5
      have h6 := Int.self_le_toNat ⌈theDist⌉
      omega
  · simp only [Ray.seekCollision]
    rw [show (⟨.fin x0, .fin y0, .fin 0⟩ : SeekState) = stB theta x0 y0 x0 from by
      rw [stB, lineB]
      simp only [SeekState.mk.injEq, JSNum.fin.injEq]
      exact ⟨trivial, by ring, by ring⟩]
    rw [show Ray.fuelBound theDist =
        (2 * ((Int.ceil theDist).toNat + 4) - 1) + 1 from by
      rw [Ray.fuelBound]
      omega]
    apply seekAux_B_miss w theta x0 y0 theDist hs hc ?_ _ x0 (by
      rw [sub_self, mul_zero]) ?_
    · intro i j px hcw h1 h2 h3 h4 h5 h6
      exact hnw ⟨i, j, px, hcw, h1, h2, h3, h4, h5, h6⟩
    · have hy0 : Real.tan theta * x0 + lineB theta x0 y0 = y0 := by
        rw [lineB]
        ring
      rw [hy0]
      have hfx : ⌊Real.sign (Real.cos theta) * x0 + theDist⌋ ≤ ⌊Real.sign (Real.cos theta) * x0⌋ + ⌈theDist⌉ := by
        have h5 : ⌊Real.sign (Real.cos theta) * x0 + theDist⌋ ≤ ⌊Real.sign (Real.cos theta) * x0 + (⌈theDist⌉ : ℝ)⌋ :=
          Int.floor_le_floor (by linarith [Int.le_ceil theDist])
        rw [Int.floor_add_int] at h5
        exact h5
      have hfy : ⌊Real.sign (Real.sin theta) * y0 + theDist⌋ ≤ ⌊Real.sign (Real.sin theta) * y0⌋ + ⌈theDist⌉ := by
        have h5 : ⌊Real.sign (Real.sin theta) * y0 + theDist⌋ ≤ ⌊Real.sign (Real.sin theta) * y0 + (⌈theDist⌉ : ℝ)⌋ :=
          Int.floor_le_floor (by linarith [Int.le_ceil theDist])
        rw [Int.floor_add_int] at h5
        exact h5
      have h6 := Int.self_le_toNat ⌈theDist⌉
      omega

/-- A heading-0 ray in the empty world, for the C7 witness. -/
noncomputable def rayMissA : Ray ℝ := ⟨1 / 2, 1 / 2, 0, wEmpty, 3⟩

theorem rayMissA_noWall : ¬ Ray.pathMeetsWall rayMissA := by
  rintro ⟨i, j, px, hcw, -⟩
  rw [show rayMissA.world = wEmpty from rfl, wEmpty_checkCollision] at hcw
  exact Bool.false_ne_true hcw

/-- Witness for `c7_amended`: a concrete heading-0 ray in the wall-free
world satisfies both hypotheses, and its cast returns Miss. -/
theorem c7_witness : Ray.seekCollision rayMissA = some none :=
  c7_amended rayMissA (Or.inl rfl) rayMissA_noWall
